import Mathlib

/-!
Verification of the transaction-locking consensus engine ("DirectSend")
implemented in src/instantx.cpp.

The engine state (class CDirectSend), the per-input vote accumulator
(COutPointLock), the per-transaction candidate (CTxLockCandidate), the
lock request (CTxLockRequest) and the lock vote (CTxLockVote) are embedded
shallowly.  std::map containers are modelled as association lists with
std::map semantics (insert is a no-op when the key is present, operator[]
assigns, erase removes the key).  External collaborators (UTXO set,
mempool, masternode manager, sporks, signatures, clock, chain) are a
record of pure functions (Env).  External side effects that the claims
talk about (PoSe bans) are recorded in an effect log inside the state.
The mutually recursive message-processing functions are indexed by a fuel
parameter; all claims are proved for every fuel (or every positive fuel),
since the branches they concern do not recurse.
-/

namespace InstantX

/-- A transaction outpoint: (tx hash, output index).  Hashes are abstract
naturals (the protocol serialization is injective). -/
structure COutPoint where
  hash : Nat
  n : Nat
deriving DecidableEq, Repr

abbrev Hash := Nat

/-- Identity of a lock vote: GetHash() serializes exactly
(txHash, outpoint, outpointMasternode); we model the injective hash by the
triple itself. -/
abbrev VoteId := Hash × COutPoint × COutPoint

/-- A transaction output; the script is abstracted by the two predicates
instantx.cpp queries on it. -/
structure CTxOut where
  nValue : Int
  fNormalPaymentScript : Bool
  fUnspendable : Bool
deriving DecidableEq, Repr

/-- A lock request: the announced transaction.  Identified by its hash. -/
structure CTxLockRequest where
  hash : Hash
  vin : List COutPoint
  vout : List CTxOut
deriving DecidableEq, Repr

/-- The default-constructed CTxLockRequest() used for empty candidates. -/
def CTxLockRequest.empty : CTxLockRequest := ⟨0, [], []⟩

def CTxLockRequest.GetHash (r : CTxLockRequest) : Hash := r.hash

/-- A resolvable UTXO coin, as returned by GetUTXOCoins: its height and the
value of the referenced output. -/
structure Coin where
  nHeight : Int
  value : Int
deriving DecidableEq, Repr

/-- A lock vote.  vchMasternodeSignature is an abstract signature value. -/
structure CTxLockVote where
  txHash : Hash
  outpoint : COutPoint
  outpointMasternode : COutPoint
  vchMasternodeSignature : Nat
  nConfirmedHeight : Int
  nTimeCreated : Int
deriving DecidableEq, Repr

def CTxLockVote.GetHash (v : CTxLockVote) : VoteId :=
  (v.txHash, v.outpoint, v.outpointMasternode)

/-- Plain field setter (declared in instantx.h; SyncTransaction uses it to
track the vote's confirmed height). -/
def CTxLockVote.SetConfirmedHeight (v : CTxLockVote) (h : Int) : CTxLockVote :=
  {v with nConfirmedHeight := h}

/- Consensus constants.  Values follow the spec (§9) and instantx.h. -/
def SIGNATURES_REQUIRED : Nat := 6
def SIGNATURES_TOTAL : Int := 10
def DIRECTSEND_CONFIRMATIONS_REQUIRED : Int := 6
def MIN_FEE : Int := 100000
def COIN : Int := 100000000
def DIRECTSEND_LOCK_TIMEOUT_SECONDS : Int := 15
def DIRECTSEND_FAILED_TIMEOUT_SECONDS : Int := 60
def MIN_DIRECTSEND_PROTO_VERSION : Int := 70208

/-- External collaborators of the engine, as pure functions. -/
structure Env where
  fLiteMode : Bool
  sporkDirectSendEnabled : Bool
  sporkBlockFiltering : Bool
  masternodeListSynced : Bool
  time : Int
  chainHeight : Int
  checkFinalTx : CTxLockRequest → Bool
  getUTXOCoins : COutPoint → Option Coin
  sporkMaxValue : Int
  fDIP0001ActiveAtTip : Bool
  mnInfo : COutPoint → Option Nat
  mnRank : COutPoint → Int → Option Int
  verifyMessage : Nat → Nat → Hash × COutPoint → Bool
  mempoolNextTx : COutPoint → Option Hash
  inBlock : Hash → Bool
  blockHeight : Hash → Option Int
  keepLock : Int
  fMasterNode : Bool
  activeMasternode : COutPoint
  sign : Hash × COutPoint → Option Nat
  fEnableDirectSend : Bool
  fLargeWorkForkFound : Bool
  fLargeWorkInvalidChainFound : Bool
  walletUpdated : Hash → Bool

/- Association-list maps with std::map semantics. -/

section Maps
variable {α : Type} {β : Type} [DecidableEq α]

/-- map::find -/
def mfind : List (α × β) → α → Option β
  | [], _ => none
  | (a, b) :: r, k => if a = k then some b else mfind r k

/-- map::insert — no-op when the key is already present. -/
def minsert (m : List (α × β)) (k : α) (v : β) : List (α × β) :=
  if (mfind m k).isSome then m else (k, v) :: m

/-- map::operator[] followed by assignment — replace or add. -/
def massign : List (α × β) → α → β → List (α × β)
  | [], k, v => [(k, v)]
  | (a, b) :: r, k, v => if a = k then (k, v) :: r else (a, b) :: massign r k v

/-- map::erase by key. -/
def merase : List (α × β) → α → List (α × β)
  | [], _ => []
  | (a, b) :: r, k => if a = k then merase r k else (a, b) :: merase r k

/-- set::insert -/
def sinsert (l : List α) (x : α) : List α :=
  if x ∈ l then l else x :: l


end Maps

/-!  COutPointLock -/

/-- Per-input accumulator: masternode outpoint → vote. -/
structure COutPointLock where
  outpoint : COutPoint
  mapMasternodeVotes : List (COutPoint × CTxLockVote)
  fAttacked : Bool
deriving DecidableEq, Repr

namespace COutPointLock

/-- Constructor COutPointLock(outpoint). -/
def init (o : COutPoint) : COutPointLock := ⟨o, [], false⟩

def AddVote (l : COutPointLock) (v : CTxLockVote) : COutPointLock × Bool :=
  if (mfind l.mapMasternodeVotes v.outpointMasternode).isSome then (l, false)
  else ({l with mapMasternodeVotes := (v.outpointMasternode, v) :: l.mapMasternodeVotes}, true)

def GetVotes (l : COutPointLock) : List CTxLockVote :=
  l.mapMasternodeVotes.map Prod.snd

def HasMasternodeVoted (l : COutPointLock) (mn : COutPoint) : Bool :=
  (mfind l.mapMasternodeVotes mn).isSome

def CountVotes (l : COutPointLock) : Nat := l.mapMasternodeVotes.length

/-- Modelled from the spec: IsReady is declared in instantx.h, which is not
under src/.  Spec §4.1: ready when count ≥ SIGS_REQUIRED; §4.1/§8 S4: an
attacked lock must not let its candidate complete. -/
def IsReady (l : COutPointLock) : Bool :=
  !l.fAttacked && decide (SIGNATURES_REQUIRED ≤ l.CountVotes)

def MarkAsAttacked (l : COutPointLock) : COutPointLock := {l with fAttacked := true}

end COutPointLock

/-!  CTxLockCandidate -/

/-- Per-transaction candidate.  txLockRequest = none models the
default-constructed (empty) CTxLockRequest of an orphan-created
candidate. -/
structure CTxLockCandidate where
  txLockRequest : Option CTxLockRequest
  mapOutPointLocks : List (COutPoint × COutPointLock)
  nConfirmedHeight : Int
  nTimeCreated : Int
deriving DecidableEq, Repr

namespace CTxLockCandidate

def GetHash (c : CTxLockCandidate) : Hash :=
  (c.txLockRequest.getD CTxLockRequest.empty).hash

def AddOutPointLock (c : CTxLockCandidate) (o : COutPoint) : CTxLockCandidate :=
  {c with mapOutPointLocks := minsert c.mapOutPointLocks o (COutPointLock.init o)}

def MarkOutpointAsAttacked (c : CTxLockCandidate) (o : COutPoint) : CTxLockCandidate :=
  match mfind c.mapOutPointLocks o with
  | none => c
  | some l => {c with mapOutPointLocks := massign c.mapOutPointLocks o l.MarkAsAttacked}

def AddVote (c : CTxLockCandidate) (v : CTxLockVote) : CTxLockCandidate × Bool :=
  match mfind c.mapOutPointLocks v.outpoint with
  | none => (c, false)
  | some l =>
    let p := l.AddVote v
    ({c with mapOutPointLocks := massign c.mapOutPointLocks v.outpoint p.1}, p.2)

def IsAllOutPointsReady (c : CTxLockCandidate) : Bool :=
  !c.mapOutPointLocks.isEmpty && c.mapOutPointLocks.all (fun p => p.2.IsReady)

def HasMasternodeVoted (c : CTxLockCandidate) (o mn : COutPoint) : Bool :=
  (mfind c.mapOutPointLocks o).elim false (fun l => l.HasMasternodeVoted mn)

def CountVotes (c : CTxLockCandidate) : Nat :=
  (c.mapOutPointLocks.map (fun p => p.2.CountVotes)).sum

def IsExpired (env : Env) (c : CTxLockCandidate) (nHeight : Int) : Bool :=
  decide (c.nConfirmedHeight ≠ -1 ∧ nHeight - c.nConfirmedHeight > env.keepLock)

def IsTimedOut (env : Env) (c : CTxLockCandidate) : Bool :=
  decide (env.time - c.nTimeCreated > DIRECTSEND_LOCK_TIMEOUT_SECONDS)

/-- Modelled from the spec: SetConfirmedHeight is declared in instantx.h,
which is not under src/.  Spec §4.2: it also propagates the height to every
contained vote (so vote expiry tracks candidate inclusion). -/
def SetConfirmedHeight (c : CTxLockCandidate) (h : Int) : CTxLockCandidate :=
  {c with nConfirmedHeight := h,
          mapOutPointLocks := c.mapOutPointLocks.map (fun p =>
            (p.1, {p.2 with mapMasternodeVotes :=
              p.2.mapMasternodeVotes.map (fun q => (q.1, q.2.SetConfirmedHeight h))}))}

end CTxLockCandidate

/-!  CTxLockVote validation -/

namespace CTxLockVote

def CheckSignature (env : Env) (v : CTxLockVote) : Bool :=
  match env.mnInfo v.outpointMasternode with
  | none => false
  | some pk => env.verifyMessage pk v.vchMasternodeSignature (v.txHash, v.outpoint)

def IsValid (env : Env) (v : CTxLockVote) : Bool :=
  if !(env.mnInfo v.outpointMasternode).isSome then false
  else
    match env.getUTXOCoins v.outpoint with
    | none => false
    | some coins =>
      match env.mnRank v.outpointMasternode (coins.nHeight + 4) with
      | none => false
      | some nRank =>
        if nRank > SIGNATURES_TOTAL then false
        else v.CheckSignature env

def IsExpired (env : Env) (v : CTxLockVote) (nHeight : Int) : Bool :=
  decide (v.nConfirmedHeight ≠ -1 ∧ nHeight - v.nConfirmedHeight > env.keepLock)

def IsTimedOut (env : Env) (v : CTxLockVote) : Bool :=
  decide (env.time - v.nTimeCreated > DIRECTSEND_LOCK_TIMEOUT_SECONDS)

end CTxLockVote

/-!  CTxLockRequest validation -/

namespace CTxLockRequest

/-- The per-output loop of IsValid: script check and output-value sum. -/
def VOutLoop : List CTxOut → Int → Option Int
  | [], acc => some acc
  | txout :: rest, acc =>
    if !txout.fNormalPaymentScript && !txout.fUnspendable then none
    else VOutLoop rest (acc + txout.nValue)

/-- The per-input loop of IsValid: UTXO resolution, coin-age check and
input-value sum. -/
def VInLoop (env : Env) : List COutPoint → Int → Option Int
  | [], acc => some acc
  | txin :: rest, acc =>
    match env.getUTXOCoins txin with
    | none => none
    | some coins =>
      if env.chainHeight - coins.nHeight + 1 < DIRECTSEND_CONFIRMATIONS_REQUIRED - 1 then none
      else VInLoop env rest (acc + coins.value)

def GetMinFee (env : Env) (r : CTxLockRequest) : Int :=
  let nMinFee := if env.fDIP0001ActiveAtTip then MIN_FEE / 10 else MIN_FEE
  max nMinFee ((r.vin.length : Int) * nMinFee)

def IsValid (env : Env) (r : CTxLockRequest) : Bool :=
  if r.vout.length < 1 then false
  else if !(env.checkFinalTx r) then false
  else
    match VOutLoop r.vout 0 with
    | none => false
    | some nValueOut =>
      match VInLoop env r.vin 0 with
      | none => false
      | some nValueIn =>
        if nValueIn > env.sporkMaxValue * COIN then false
        else if nValueIn - nValueOut < r.GetMinFee env then false
        else true

def GetMaxSignatures (r : CTxLockRequest) : Int :=
  (r.vin.length : Int) * SIGNATURES_TOTAL

end CTxLockRequest

/-!  The engine state (class CDirectSend).  poseBans is an effect log of
the external mnodeman.PoSeBan calls, appended in call order. -/

structure CDirectSend where
  mapLockRequestAccepted : List (Hash × CTxLockRequest)
  mapLockRequestRejected : List (Hash × CTxLockRequest)
  mapTxLockVotes : List (VoteId × CTxLockVote)
  mapTxLockVotesOrphan : List (VoteId × CTxLockVote)
  mapTxLockCandidates : List (Hash × CTxLockCandidate)
  mapVotedOutpoints : List (COutPoint × List Hash)
  mapLockedOutpoints : List (COutPoint × Hash)
  mapMasternodeOrphanVotes : List (COutPoint × Int)
  nCachedBlockHeight : Int
  nCompleteTXLocks : Int
  poseBans : List COutPoint
deriving DecidableEq, Repr

/-- GetUTXOHeight, derived from the same UTXO view as GetUTXOCoins. -/
def GetUTXOHeight (env : Env) (o : COutPoint) : Int :=
  (env.getUTXOCoins o).elim (-1) (fun c => c.nHeight)

namespace CDirectSend

def GetAverageMasternodeOrphanVoteTime (s : CDirectSend) : Int :=
  if s.mapMasternodeOrphanVotes.isEmpty then 0
  else (s.mapMasternodeOrphanVotes.map Prod.snd).sum / (s.mapMasternodeOrphanVotes.length : Int)

def IsLockedDirectSendTransaction (env : Env) (s : CDirectSend) (txHash : Hash) : Bool :=
  if !env.fEnableDirectSend || env.fLargeWorkForkFound || env.fLargeWorkInvalidChainFound
      || !env.sporkBlockFiltering then false
  else
    match mfind s.mapTxLockCandidates txHash with
    | none => false
    | some c =>
      if c.mapOutPointLocks.isEmpty then false
      else c.mapOutPointLocks.all (fun p =>
        match mfind s.mapLockedOutpoints p.1 with
        | some h => decide (h = txHash)
        | none => false)

end CDirectSend

namespace CTxLockVote

/-- IsFailed consults the live engine (directsend.IsLockedDirectSendTransaction). -/
def IsFailed (env : Env) (s : CDirectSend) (v : CTxLockVote) : Bool :=
  decide (env.time - v.nTimeCreated > DIRECTSEND_FAILED_TIMEOUT_SECONDS)
    && !(CDirectSend.IsLockedDirectSendTransaction env s v.txHash)

end CTxLockVote

namespace CDirectSend

/-- The expired-candidate sweep of CheckAndRemove, iterating the candidate
entries and erasing each expired candidate together with its outpoints and
its request-map entries. -/
def CandidateSweep (env : Env) : List (Hash × CTxLockCandidate) → CDirectSend → CDirectSend
  | [], s => s
  | (key, c) :: rest, s =>
    if c.IsExpired env s.nCachedBlockHeight then
      CandidateSweep env rest
        {s with
          mapLockedOutpoints := c.mapOutPointLocks.foldl (fun m p => merase m p.1) s.mapLockedOutpoints,
          mapVotedOutpoints := c.mapOutPointLocks.foldl (fun m p => merase m p.1) s.mapVotedOutpoints,
          mapLockRequestAccepted := merase s.mapLockRequestAccepted c.GetHash,
          mapLockRequestRejected := merase s.mapLockRequestRejected c.GetHash,
          mapTxLockCandidates := merase s.mapTxLockCandidates key}
    else CandidateSweep env rest s

/-- The timed-out-orphan sweep of CheckAndRemove. -/
def OrphanSweep (env : Env) : List (VoteId × CTxLockVote) → CDirectSend → CDirectSend
  | [], s => s
  | (key, v) :: rest, s =>
    if v.IsTimedOut env then
      OrphanSweep env rest
        {s with mapTxLockVotes := merase s.mapTxLockVotes key,
                mapTxLockVotesOrphan := merase s.mapTxLockVotesOrphan key}
    else OrphanSweep env rest s

def CheckAndRemove (env : Env) (s : CDirectSend) : CDirectSend :=
  if !env.masternodeListSynced then s
  else
    let s1 := CandidateSweep env s.mapTxLockCandidates s
    let s2 := {s1 with mapTxLockVotes :=
      s1.mapTxLockVotes.filter (fun p => !(p.2.IsExpired env s1.nCachedBlockHeight))}
    let s3 := OrphanSweep env s2.mapTxLockVotesOrphan s2
    let s4 := {s3 with mapTxLockVotes :=
      s3.mapTxLockVotes.filter (fun p => !(p.2.IsFailed env s3))}
    {s4 with mapMasternodeOrphanVotes :=
      s4.mapMasternodeOrphanVotes.filter (fun p => !(decide (p.2 < env.time)))}

def AlreadyHave (s : CDirectSend) (h : Hash × Option VoteId) : Bool :=
  -- request hashes and vote hashes live in different key spaces of the model;
  -- AlreadyHave is queried with either kind.
  match h.2 with
  | some vid => (mfind s.mapTxLockVotes vid).isSome
  | none =>
    (mfind s.mapLockRequestAccepted h.1).isSome || (mfind s.mapLockRequestRejected h.1).isSome

def AcceptLockRequest (s : CDirectSend) (r : CTxLockRequest) : CDirectSend :=
  {s with mapLockRequestAccepted := minsert s.mapLockRequestAccepted r.GetHash r}

def RejectLockRequest (s : CDirectSend) (r : CTxLockRequest) : CDirectSend :=
  {s with mapLockRequestRejected := minsert s.mapLockRequestRejected r.GetHash r}

def CreateEmptyTxLockCandidate (env : Env) (s : CDirectSend) (txHash : Hash) : CDirectSend :=
  if (mfind s.mapTxLockCandidates txHash).isSome then s
  else
    let empty : CTxLockCandidate := ⟨none, [], -1, env.time⟩
    {s with mapTxLockCandidates := minsert s.mapTxLockCandidates txHash empty}

def CreateTxLockCandidate (env : Env) (s : CDirectSend) (req : CTxLockRequest) :
    CDirectSend × Bool :=
  if !(req.IsValid env) then (s, false)
  else
    match mfind s.mapTxLockCandidates req.hash with
    | none =>
      let c := req.vin.reverse.foldl (fun c o => c.AddOutPointLock o)
        (⟨some req, [], -1, env.time⟩ : CTxLockCandidate)
      ({s with mapTxLockCandidates := minsert s.mapTxLockCandidates req.hash c}, true)
    | some c0 =>
      if c0.txLockRequest.isNone then
        let c1 := {c0 with txLockRequest := some req}
        if c1.IsTimedOut env then
          ({s with mapTxLockCandidates := massign s.mapTxLockCandidates req.hash c1}, false)
        else
          let c2 := req.vin.reverse.foldl (fun c o => c.AddOutPointLock o) c1
          ({s with mapTxLockCandidates := massign s.mapTxLockCandidates req.hash c2}, true)
      else (s, true)

/-- The per-outpoint loop of CDirectSend::Vote (self-voting). -/
def VoteLoop (env : Env) (txHash : Hash) : List COutPoint → CDirectSend → CDirectSend
  | [], s => s
  | o :: rest, s =>
    if GetUTXOHeight env o = -1 then s
    else
      let nLockInputHeight := GetUTXOHeight env o + 4
      match env.mnRank env.activeMasternode nLockInputHeight with
      | none => VoteLoop env txHash rest s
      | some nRank =>
        if nRank > SIGNATURES_TOTAL then VoteLoop env txHash rest s
        else
          let fAlreadyVoted := ((mfind s.mapVotedOutpoints o).getD []).any (fun h =>
            (mfind s.mapTxLockCandidates h).elim false (fun c2 =>
              c2.HasMasternodeVoted o env.activeMasternode))
          if fAlreadyVoted then VoteLoop env txHash rest s
          else
            match env.sign (txHash, o) with
            | none => s
            | some sg =>
              let vote : CTxLockVote :=
                {txHash := txHash, outpoint := o, outpointMasternode := env.activeMasternode,
                 vchMasternodeSignature := sg, nConfirmedHeight := -1, nTimeCreated := env.time}
              if !(vote.CheckSignature env) then s
              else
                let s1 := {s with mapTxLockVotes := minsert s.mapTxLockVotes vote.GetHash vote}
                match mfind s1.mapTxLockCandidates txHash with
                | none => VoteLoop env txHash rest s1
                | some c =>
                  let p := c.AddVote vote
                  let s2 := {s1 with mapTxLockCandidates := massign s1.mapTxLockCandidates txHash p.1}
                  if p.2 then
                    let newSet := sinsert ((mfind s2.mapVotedOutpoints o).getD []) txHash
                    VoteLoop env txHash rest
                      {s2 with mapVotedOutpoints := massign s2.mapVotedOutpoints o newSet}
                  else VoteLoop env txHash rest s2

def Vote (env : Env) (s : CDirectSend) (txHash : Hash) : CDirectSend :=
  if !env.fMasterNode then s
  else if !env.sporkDirectSendEnabled then s
  else
    match mfind s.mapTxLockCandidates txHash with
    | none => s
    | some c => VoteLoop env txHash (c.mapOutPointLocks.map Prod.fst) s

def LockTransactionInputs (env : Env) (s : CDirectSend) (c : CTxLockCandidate) : CDirectSend :=
  if !env.sporkDirectSendEnabled then s
  else if !c.IsAllOutPointsReady then s
  else {s with mapLockedOutpoints :=
    c.mapOutPointLocks.foldl (fun m p => minsert m p.1 c.GetHash) s.mapLockedOutpoints}

def UpdateLockedTransaction (env : Env) (s : CDirectSend) (c : CTxLockCandidate) : CDirectSend :=
  if !(IsLockedDirectSendTransaction env s c.GetHash) then s
  else if env.walletUpdated c.GetHash then {s with nCompleteTXLocks := s.nCompleteTXLocks + 1}
  else s

/-- The per-input loop of ResolveConflicts.  Result (s, some b) is an early
return with value b; (s, none) means the loop ran to completion. -/
def RCLoop (env : Env) (txHash : Hash) (s : CDirectSend) :
    List COutPoint → CDirectSend × Option Bool
  | [] => (s, none)
  | txin :: rest =>
    let lockedConflict : Option Hash :=
      match mfind s.mapLockedOutpoints txin with
      | some h => if txHash ≠ h then some h else none
      | none => none
    match lockedConflict with
    | some hashConflicting =>
      match mfind s.mapTxLockCandidates txHash, mfind s.mapTxLockCandidates hashConflicting with
      | some c1, some c2 =>
        let req1 := c1.txLockRequest.getD CTxLockRequest.empty
        let req2 := c2.txLockRequest.getD CTxLockRequest.empty
        let cands1 := massign s.mapTxLockCandidates txHash (c1.SetConfirmedHeight 0)
        let cands2 := massign cands1 hashConflicting (c2.SetConfirmedHeight 0)
        let s1 := {s with mapTxLockCandidates := cands2}
        let s2 := CheckAndRemove env s1
        let rej2 := minsert (minsert s2.mapLockRequestRejected txHash req1) hashConflicting req2
        let s3 := {s2 with mapLockRequestRejected := rej2}
        (s3, some false)
      | _, _ => (s, some false)
    | none =>
      match env.mempoolNextTx txin with
      | some hm => if txHash = hm then RCLoop env txHash s rest else (s, some false)
      | none => RCLoop env txHash s rest

def ResolveConflicts (env : Env) (s : CDirectSend) (c : CTxLockCandidate) :
    CDirectSend × Bool :=
  let txHash := c.GetHash
  if !c.IsAllOutPointsReady then (s, false)
  else
    match RCLoop env txHash s ((c.txLockRequest.getD CTxLockRequest.empty).vin) with
    | (s1, some b) => (s1, b)
    | (s1, none) =>
      if env.inBlock txHash then (s1, true)
      else if ((c.txLockRequest.getD CTxLockRequest.empty).vin).all
          (fun i => (env.getUTXOCoins i).isSome) then (s1, true)
      else (s1, false)

def TryToFinalizeLockCandidate (env : Env) (s : CDirectSend) (txHash : Hash) : CDirectSend :=
  if !env.sporkDirectSendEnabled then s
  else
    match mfind s.mapTxLockCandidates txHash with
    | none => s
    | some c =>
      if c.IsAllOutPointsReady && !(IsLockedDirectSendTransaction env s c.GetHash) then
        let p := ResolveConflicts env s c
        if p.2 then
          let s2 := LockTransactionInputs env p.1 c
          UpdateLockedTransaction env s2 c
        else p.1
      else s

def IsEnoughOrphanVotesForTxAndOutPoint (s : CDirectSend) (txHash : Hash) (o : COutPoint) : Bool :=
  decide (SIGNATURES_REQUIRED ≤
    (s.mapTxLockVotesOrphan.filter (fun p =>
      decide (p.2.txHash = txHash ∧ p.2.outpoint = o))).length)

def IsEnoughOrphanVotesForTx (s : CDirectSend) (req : CTxLockRequest) : Bool :=
  req.vin.all (fun o => IsEnoughOrphanVotesForTxAndOutPoint s req.hash o)

/-- The per-masternode orphan rate limiter (tail of the orphan branch of
ProcessTxLockVote). -/
def OrphanRateCheck (env : Env) (s : CDirectSend) (mn : COutPoint) : CDirectSend × Bool :=
  let nExpire := env.time + 600
  let refreshed := massign s.mapMasternodeOrphanVotes mn nExpire
  match mfind s.mapMasternodeOrphanVotes mn with
  | none => ({s with mapMasternodeOrphanVotes := refreshed}, true)
  | some prev =>
    if prev > env.time ∧ prev > s.GetAverageMasternodeOrphanVoteTime then (s, false)
    else ({s with mapMasternodeOrphanVotes := refreshed}, true)

/-- The equivocation scan of the attached branch of ProcessTxLockVote: for
each other tx hash voted on this outpoint, if the same masternode voted
there too, mark the outpoint attacked in both candidates and PoSe-ban the
masternode. -/
def EquivocationScan (vote : CTxLockVote) (hashes : List Hash) (s : CDirectSend) : CDirectSend :=
  hashes.foldl (fun acc h =>
    if h ≠ vote.txHash then
      match mfind acc.mapTxLockCandidates h with
      | some c2 =>
        if c2.HasMasternodeVoted vote.outpoint vote.outpointMasternode then
          let acc1 :=
            match mfind acc.mapTxLockCandidates vote.txHash with
            | some cc =>
              let m1 := massign acc.mapTxLockCandidates vote.txHash
                (cc.MarkOutpointAsAttacked vote.outpoint)
              {acc with mapTxLockCandidates := m1}
            | none => acc
          let m2 := massign acc1.mapTxLockCandidates h (c2.MarkOutpointAsAttacked vote.outpoint)
          let acc2 := {acc1 with mapTxLockCandidates := m2}
          {acc2 with poseBans := acc2.poseBans ++ [vote.outpointMasternode]}
        else acc
      | none => acc
    else acc) s

mutual

/-- CDirectSend::ProcessTxLockVote.  The fuel argument bounds the
reprocessing recursion (orphan votes triggering ProcessTxLockRequest);
out of fuel, the call fails without touching the state. -/
def ProcessTxLockVote : Nat → Env → CDirectSend → CTxLockVote → CDirectSend × Bool
  | 0, _, s, _ => (s, false)
  | Nat.succ fuel, env, s, vote =>
    if !(vote.IsValid env) then (s, false)
    else
      let attachedCand : Option CTxLockCandidate :=
        match mfind s.mapTxLockCandidates vote.txHash with
        | some c => if c.txLockRequest.isSome then some c else none
        | none => none
      match attachedCand with
      | none =>
        -- orphan branch
        if !(mfind s.mapTxLockVotesOrphan vote.GetHash).isSome then
          let s1 := CreateEmptyTxLockCandidate env s vote.txHash
          let orphans2 := massign s1.mapTxLockVotesOrphan vote.GetHash vote
          let s2 := {s1 with mapTxLockVotesOrphan := orphans2}
          let reqOpt :=
            match mfind s2.mapLockRequestAccepted vote.txHash with
            | some r => some r
            | none => mfind s2.mapLockRequestRejected vote.txHash
          match reqOpt with
          | some req =>
            if s2.IsEnoughOrphanVotesForTx req then
              ((ProcessTxLockRequest fuel env s2 req).1, true)
            else OrphanRateCheck env s2 vote.outpointMasternode
          | none => OrphanRateCheck env s2 vote.outpointMasternode
        else OrphanRateCheck env s vote.outpointMasternode
      | some c =>
        if c.IsTimedOut env then (s, false)
        else
          let s1 :=
            match mfind s.mapVotedOutpoints vote.outpoint with
            | some hashes =>
              let sM := EquivocationScan vote hashes s
              let m := massign sM.mapVotedOutpoints vote.outpoint (sinsert hashes vote.txHash)
              {sM with mapVotedOutpoints := m}
            | none =>
              let m := minsert s.mapVotedOutpoints vote.outpoint [vote.txHash]
              {s with mapVotedOutpoints := m}
          match mfind s1.mapTxLockCandidates vote.txHash with
          | none => (s1, false)
          | some cNow =>
            let p := cNow.AddVote vote
            if !p.2 then (s1, false)
            else
              let m := massign s1.mapTxLockCandidates vote.txHash p.1
              let s2 := {s1 with mapTxLockCandidates := m}
              (TryToFinalizeLockCandidate env s2 vote.txHash, true)

/-- CDirectSend::ProcessTxLockRequest. -/
def ProcessTxLockRequest : Nat → Env → CDirectSend → CTxLockRequest → CDirectSend × Bool
  | 0, _, s, _ => (s, false)
  | Nat.succ fuel, env, s, req =>
    -- the two conflict surveys only log; they do not modify the state
    let p := CreateTxLockCandidate env s req
    if !p.2 then (p.1, false)
    else
      let s2 := Vote env p.1 req.GetHash
      let s3 := POTVLoop fuel env (s2.mapTxLockVotesOrphan.map Prod.fst) s2
      (TryToFinalizeLockCandidate env s3 req.GetHash, true)

/-- The loop body of ProcessOrphanTxLockVotes: reprocess each orphan vote,
erasing it from the orphan map when processing succeeds. -/
def POTVLoop : Nat → Env → List VoteId → CDirectSend → CDirectSend
  | _, _, [], s => s
  | 0, _, _ :: _, s => s
  | Nat.succ fuel, env, k :: rest, s =>
    match mfind s.mapTxLockVotesOrphan k with
    | none => POTVLoop fuel env rest s
    | some v =>
      let p := ProcessTxLockVote fuel env s v
      let s2 :=
        if p.2 then {p.1 with mapTxLockVotesOrphan := merase p.1.mapTxLockVotesOrphan k}
        else p.1
      POTVLoop fuel env rest s2

end

def ProcessOrphanTxLockVotes (fuel : Nat) (env : Env) (s : CDirectSend) : CDirectSend :=
  POTVLoop fuel env (s.mapTxLockVotesOrphan.map Prod.fst) s

/-- The TXLOCKVOTE branch of CDirectSend::ProcessMessage. -/
def ProcessMessage (fuel : Nat) (env : Env) (s : CDirectSend) (peerVersion : Int)
    (vote : CTxLockVote) : CDirectSend :=
  if env.fLiteMode then s
  else if !env.sporkDirectSendEnabled then s
  else if !env.masternodeListSynced then s
  else if peerVersion < MIN_DIRECTSEND_PROTO_VERSION then s
  else if (mfind s.mapTxLockVotes vote.GetHash).isSome then s
  else
    let s1 := {s with mapTxLockVotes := minsert s.mapTxLockVotes vote.GetHash vote}
    (ProcessTxLockVote fuel env s1 vote).1

/-- The default-constructed CTxLockVote() that mapTxLockVotes operator[]
creates when the key is absent (instantx.h default constructor). -/
def DefaultVote (env : Env) : CTxLockVote :=
  {txHash := 0, outpoint := ⟨0, 0⟩, outpointMasternode := ⟨0, 0⟩,
   vchMasternodeSignature := 0, nConfirmedHeight := -1, nTimeCreated := env.time}

/-- CDirectSend::SyncTransaction for a transaction identified by txHash.
blockHashOpt = none models pblock == NULL (0-confirmed / conflicted). -/
def SyncTransaction (env : Env) (s : CDirectSend) (txHash : Hash) (fCoinBase : Bool)
    (blockHashOpt : Option Hash) : CDirectSend :=
  if fCoinBase then s
  else
    let heightComputed : Option Int :=
      match blockHashOpt with
      | some bh => env.blockHeight bh
      | none => some (-1)
    match heightComputed with
    | none => s
    | some nHeightNew =>
      let s1 :=
        match mfind s.mapTxLockCandidates txHash with
        | none => s
        | some c =>
          let cands := massign s.mapTxLockCandidates txHash (c.SetConfirmedHeight nHeightNew)
          let sA := {s with mapTxLockCandidates := cands}
          let ids := c.mapOutPointLocks.flatMap (fun p => p.2.GetVotes.map CTxLockVote.GetHash)
          ids.foldl (fun acc id =>
            match mfind acc.mapTxLockVotes id with
            | some w =>
              let m := massign acc.mapTxLockVotes id (w.SetConfirmedHeight nHeightNew)
              {acc with mapTxLockVotes := m}
            | none => acc) sA
      s1.mapTxLockVotesOrphan.foldl (fun acc p =>
        if p.2.txHash = txHash then
          let cur := (mfind acc.mapTxLockVotes p.1).getD (DefaultVote env)
          let m := massign acc.mapTxLockVotes p.1 (cur.SetConfirmedHeight nHeightNew)
          {acc with mapTxLockVotes := m}
        else acc) s1

def UpdatedBlockTip (s : CDirectSend) (nHeight : Int) : CDirectSend :=
  {s with nCachedBlockHeight := nHeight}

end CDirectSend

/-!  Derived notions used by the statements of the claims. -/

/-- The effective minimum-fee base of CTxLockRequest::GetMinFee. -/
def EffMinFee (env : Env) : Int :=
  if env.fDIP0001ActiveAtTip then MIN_FEE / 10 else MIN_FEE

/-- The total input value of a request under the UTXO view (0 for an
unresolvable input; only quoted when all inputs resolve). -/
def TotalValueIn (env : Env) (l : List COutPoint) : Int :=
  (l.map (fun i => ((env.getUTXOCoins i).map Coin.value).getD 0)).sum

/-- The total output value of a request. -/
def TotalValueOut (l : List CTxOut) : Int :=
  (l.map CTxOut.nValue).sum

/-- Decidable form of the per-input well-formedness check of
CTxLockRequest::IsValid. -/
def GoodInput (env : Env) (i : COutPoint) : Bool :=
  match env.getUTXOCoins i with
  | none => false
  | some cn =>
    decide (DIRECTSEND_CONFIRMATIONS_REQUIRED - 1 ≤ env.chainHeight - cn.nHeight + 1)

/-- Per-input vote maps have no repeated masternode key: at most one vote
per validator per input. -/
def LockKeysNodup (l : COutPointLock) : Prop :=
  (l.mapMasternodeVotes.map Prod.fst).Nodup

def CandOk (c : CTxLockCandidate) : Prop :=
  ∀ p ∈ c.mapOutPointLocks, LockKeysNodup p.2

def CandsOk (m : List (Hash × CTxLockCandidate)) : Prop :=
  ∀ p ∈ m, CandOk p.2

/-- Engine-wide no-double-vote invariant (spec P1 / I2). -/
def NoDoubleVote (s : CDirectSend) : Prop :=
  CandsOk s.mapTxLockCandidates

instance (l : COutPointLock) : Decidable (LockKeysNodup l) := by
  unfold LockKeysNodup
  infer_instance

instance (c : CTxLockCandidate) : Decidable (CandOk c) := by
  unfold CandOk
  infer_instance

instance (m : List (Hash × CTxLockCandidate)) : Decidable (CandsOk m) := by
  unfold CandsOk
  infer_instance

instance (s : CDirectSend) : Decidable (NoDoubleVote s) := by
  unfold NoDoubleVote
  infer_instance

/-- The identity hashes of the votes attached to a candidate. -/
def AttachedVoteIds (c : CTxLockCandidate) : List VoteId :=
  c.mapOutPointLocks.flatMap (fun p => p.2.GetVotes.map CTxLockVote.GetHash)

/-!  Concrete example values used by the witnesses. -/

def exEnv : Env :=
  { fLiteMode := false, sporkDirectSendEnabled := true, sporkBlockFiltering := true,
    masternodeListSynced := true, time := 1000, chainHeight := 100,
    checkFinalTx := fun _ => true,
    getUTXOCoins := fun _ => some ⟨50, 10 * COIN⟩,
    sporkMaxValue := 100, fDIP0001ActiveAtTip := false,
    mnInfo := fun _ => some 1, mnRank := fun _ _ => some 1,
    verifyMessage := fun _ _ _ => true, mempoolNextTx := fun _ => none,
    inBlock := fun _ => false, blockHeight := fun _ => some 100, keepLock := 24,
    fMasterNode := false, activeMasternode := ⟨99, 0⟩, sign := fun _ => some 7,
    fEnableDirectSend := true, fLargeWorkForkFound := false,
    fLargeWorkInvalidChainFound := false, walletUpdated := fun _ => false }

def exState0 : CDirectSend :=
  ⟨[], [], [], [], [], [], [], [], 0, 0, []⟩

def exVote : CTxLockVote :=
  { txHash := 1, outpoint := ⟨5, 0⟩, outpointMasternode := ⟨7, 0⟩,
    vchMasternodeSignature := 7, nConfirmedHeight := -1, nTimeCreated := 1000 }

def exStateV : CDirectSend :=
  {exState0 with mapTxLockVotes := [(exVote.GetHash, exVote)]}

def exStateSpam : CDirectSend :=
  {exState0 with mapMasternodeOrphanVotes := [(⟨1, 0⟩, 10), (⟨2, 0⟩, 21)]}

def exBadReq : CTxLockRequest := ⟨9, [], []⟩

def exEnvNoMn : Env := {exEnv with mnInfo := fun _ => none}

def exReq7 : CTxLockRequest := ⟨1, [⟨5, 0⟩], [⟨5 * COIN, true, false⟩]⟩

def exVote7 : CTxLockVote :=
  { txHash := 1, outpoint := ⟨5, 0⟩, outpointMasternode := ⟨7, 0⟩,
    vchMasternodeSignature := 7, nConfirmedHeight := 100, nTimeCreated := 1000 }

def exLock7 : COutPointLock := ⟨⟨5, 0⟩, [(⟨7, 0⟩, exVote7)], false⟩

def exCand7 : CTxLockCandidate := ⟨some exReq7, [(⟨5, 0⟩, exLock7)], 100, 1000⟩

def exState7 : CDirectSend :=
  { exState0 with
    mapTxLockCandidates := [(1, exCand7)],
    mapTxLockVotes := [(exVote7.GetHash, exVote7)],
    mapLockedOutpoints := [(⟨5, 0⟩, 1)],
    mapVotedOutpoints := [(⟨5, 0⟩, [1])],
    mapLockRequestAccepted := [(1, exReq7)] }

/-- A committee vote for tx 1 on input (5,0) from masternode (n,0). -/
def mkV (n : Nat) : COutPoint × CTxLockVote :=
  (⟨n, 0⟩, { txHash := 1, outpoint := ⟨5, 0⟩, outpointMasternode := ⟨n, 0⟩,
             vchMasternodeSignature := 7, nConfirmedHeight := -1, nTimeCreated := 1000 })

def exLockC2 : COutPointLock :=
  ⟨⟨5, 0⟩, [mkV 70, mkV 71, mkV 72, mkV 73, mkV 74, mkV 75], false⟩

def exReqC2a : CTxLockRequest := ⟨1, [⟨5, 0⟩], [⟨5 * COIN, true, false⟩]⟩

def exCandC2a : CTxLockCandidate := ⟨some exReqC2a, [(⟨5, 0⟩, exLockC2)], -1, 1000⟩

def exReqC2b : CTxLockRequest := ⟨2, [⟨5, 0⟩], [⟨5 * COIN, true, false⟩]⟩

def exCandC2b : CTxLockCandidate :=
  ⟨some exReqC2b, [(⟨5, 0⟩, ⟨⟨5, 0⟩, [], false⟩)], -1, 1000⟩

def exStateC2 : CDirectSend :=
  { exState0 with
    mapTxLockCandidates := [(1, exCandC2a), (2, exCandC2b)],
    mapLockedOutpoints := [(⟨5, 0⟩, 2)],
    nCachedBlockHeight := 100 }

/-- An earlier vote by the same masternode (7,0) on the same input (5,0)
but for a different transaction (hash 2): the equivocation scenario. -/
def exVoteC6old : CTxLockVote :=
  { txHash := 2, outpoint := ⟨5, 0⟩, outpointMasternode := ⟨7, 0⟩,
    vchMasternodeSignature := 7, nConfirmedHeight := -1, nTimeCreated := 990 }

def exLockC6a : COutPointLock := ⟨⟨5, 0⟩, [], false⟩

def exLockC6b : COutPointLock := ⟨⟨5, 0⟩, [(⟨7, 0⟩, exVoteC6old)], false⟩

def exReqC6a : CTxLockRequest := ⟨1, [⟨5, 0⟩], [⟨5 * COIN, true, false⟩]⟩

def exReqC6b : CTxLockRequest := ⟨2, [⟨5, 0⟩], [⟨5 * COIN, true, false⟩]⟩

def exCandC6a : CTxLockCandidate := ⟨some exReqC6a, [(⟨5, 0⟩, exLockC6a)], -1, 1000⟩

def exCandC6b : CTxLockCandidate := ⟨some exReqC6b, [(⟨5, 0⟩, exLockC6b)], -1, 1000⟩

def exStateC6 : CDirectSend :=
  { exState0 with
    mapTxLockCandidates := [(1, exCandC6a), (2, exCandC6b)],
    mapVotedOutpoints := [(⟨5, 0⟩, [2])],
    mapTxLockVotes := [(exVoteC6old.GetHash, exVoteC6old)] }

/-!  Generic lemmas about the association-list map operations. -/

section MapLemmas
variable {α : Type} {β : Type} [DecidableEq α]

@[simp] theorem mfind_nil (k : α) : mfind ([] : List (α × β)) k = none := rfl

@[simp] theorem mfind_cons (a : α) (b : β) (r : List (α × β)) (k : α) :
    mfind ((a, b) :: r) k = if a = k then some b else mfind r k := rfl

theorem mfind_mem {m : List (α × β)} {k : α} {v : β}
    (h : mfind m k = some v) : (k, v) ∈ m := by
  induction m with
  | nil => simp [mfind] at h
  | cons p r ih =>
    obtain ⟨a, b⟩ := p
    by_cases hak : a = k
    · subst hak
      simp [mfind] at h
      simp [h]
    · simp [mfind, hak] at h
      exact List.mem_cons_of_mem _ (ih h)

theorem mfind_massign_self (m : List (α × β)) (k : α) (v : β) :
    mfind (massign m k v) k = some v := by
  induction m with
  | nil => simp [massign, mfind]
  | cons p r ih =>
    obtain ⟨a, b⟩ := p
    by_cases hak : a = k
    · subst hak; simp [massign, mfind]
    · simp [massign, hak, mfind, ih]

theorem mfind_massign_ne (m : List (α × β)) (k k' : α) (v : β) (h : k ≠ k') :
    mfind (massign m k v) k' = mfind m k' := by
  induction m with
  | nil => simp [massign, mfind, h]
  | cons p r ih =>
    obtain ⟨a, b⟩ := p
    by_cases hak : a = k
    · subst hak; simp [massign, mfind, h]
    · simp [massign, hak, mfind, ih]

theorem mfind_merase_self (m : List (α × β)) (k : α) :
    mfind (merase m k) k = none := by
  induction m with
  | nil => simp [merase]
  | cons p r ih =>
    obtain ⟨a, b⟩ := p
    by_cases hak : a = k
    · simp [merase, hak, ih]
    · simp [merase, hak, mfind, ih]

theorem mfind_merase_ne (m : List (α × β)) (k k' : α) (h : k ≠ k') :
    mfind (merase m k) k' = mfind m k' := by
  induction m with
  | nil => simp [merase]
  | cons p r ih =>
    obtain ⟨a, b⟩ := p
    by_cases hak : a = k
    · subst hak
      simp [merase, mfind, h, ih]
    · simp [merase, hak, mfind, ih]

theorem mfind_merase_sub {m : List (α × β)} {k k' : α} {v : β}
    (h : mfind (merase m k) k' = some v) : mfind m k' = some v := by
  by_cases hkk : k = k'
  · subst hkk; rw [mfind_merase_self] at h; cases h
  · rwa [mfind_merase_ne m k k' hkk] at h

theorem mfind_minsert_sub {m : List (α × β)} {k k' : α} {v w : β}
    (h : mfind (minsert m k v) k' = some w) :
    mfind m k' = some w ∨ (k' = k ∧ w = v ∧ mfind m k = none) := by
  unfold minsert at h
  by_cases hs : (mfind m k).isSome
  · rw [if_pos hs] at h; exact Or.inl h
  · rw [if_neg hs] at h
    rw [mfind_cons] at h
    by_cases hkk : k = k'
    · subst hkk
      rw [if_pos rfl] at h
      exact Or.inr ⟨rfl, (Option.some.inj h).symm, Option.not_isSome_iff_eq_none.mp hs⟩
    · rw [if_neg hkk] at h
      exact Or.inl h

theorem mfind_minsert_of_none (m : List (α × β)) (k : α) (v : β)
    (h : mfind m k = none) : mfind (minsert m k v) k = some v := by
  unfold minsert
  simp [h, mfind]

end MapLemmas

theorem mfind_eq_none_iff {α β : Type} [DecidableEq α] {m : List (α × β)} {k : α} :
    mfind m k = none ↔ ∀ p ∈ m, p.1 ≠ k := by
  induction m with
  | nil => simp [mfind]
  | cons p r ih =>
    obtain ⟨a, b⟩ := p
    by_cases hak : a = k
    · subst hak; simp [mfind]
    · simp [mfind, hak, ih]

/-!  C10: totality of GetAverageMasternodeOrphanVoteTime. -/

/-- C10: GetAverageMasternodeOrphanVoteTime is total: it returns 0 on an
empty per-signer orphan-rate map and otherwise the integer mean of the
stored deadline timestamps; the division is guarded by the emptiness check,
so the divisor is never zero. -/
theorem c10_orphan_average_total (s : CDirectSend) :
    (s.mapMasternodeOrphanVotes = [] → s.GetAverageMasternodeOrphanVoteTime = 0) ∧
    (s.mapMasternodeOrphanVotes ≠ [] →
      s.mapMasternodeOrphanVotes.length ≠ 0 ∧
      s.GetAverageMasternodeOrphanVoteTime =
        (s.mapMasternodeOrphanVotes.map Prod.snd).sum / (s.mapMasternodeOrphanVotes.length : Int)) := by
  constructor
  · intro h
    simp [CDirectSend.GetAverageMasternodeOrphanVoteTime, h]
  · intro h
    constructor
    · intro hlen
      exact h (List.length_eq_zero.mp hlen)
    · cases hl : s.mapMasternodeOrphanVotes with
      | nil => exact absurd hl h
      | cons a t =>
        simp [CDirectSend.GetAverageMasternodeOrphanVoteTime, hl]

/-- Witness for C10 at a concrete two-entry map. -/
theorem c10_orphan_average_total_witness :
    exStateSpam.mapMasternodeOrphanVotes.length ≠ 0 ∧
    exStateSpam.GetAverageMasternodeOrphanVoteTime =
      (exStateSpam.mapMasternodeOrphanVotes.map Prod.snd).sum /
        (exStateSpam.mapMasternodeOrphanVotes.length : Int) :=
  (c10_orphan_average_total exStateSpam).2 (by decide)

/-!  C5: CTxLockVote::IsValid. -/

/-- C5: a vote is valid iff the signer is a registered masternode, the UTXO
coin of the voted input resolves, the signer's rank at coin.height + 4
exists and is at most SIGS_TOTAL, and the signature over the message
(tx hash hex concatenated with the input's short string, modelled by the
pair) verifies against the registry pubkey of the signer. -/
theorem c5_vote_valid_iff (env : Env) (v : CTxLockVote) :
    v.IsValid env = true ↔
      ∃ pk cn rk,
        env.mnInfo v.outpointMasternode = some pk ∧
        env.getUTXOCoins v.outpoint = some cn ∧
        env.mnRank v.outpointMasternode (cn.nHeight + 4) = some rk ∧
        rk ≤ SIGNATURES_TOTAL ∧
        env.verifyMessage pk v.vchMasternodeSignature (v.txHash, v.outpoint) = true := by
  unfold CTxLockVote.IsValid CTxLockVote.CheckSignature
  cases hmn : env.mnInfo v.outpointMasternode with
  | none => simp [hmn]
  | some pk =>
    cases hu : env.getUTXOCoins v.outpoint with
    | none => simp [hmn, hu]
    | some cn =>
      cases hr : env.mnRank v.outpointMasternode (cn.nHeight + 4) with
      | none => simp [hmn, hu, hr]
      | some rk =>
        by_cases hgt : rk > SIGNATURES_TOTAL
        · have hle : ¬ (rk ≤ SIGNATURES_TOTAL) := by omega
          simp [hmn, hu, hr, hgt, hle]
        · have hle : rk ≤ SIGNATURES_TOTAL := by omega
          simp [hmn, hu, hr, hgt, hle]

/-!  C4: CTxLockRequest::IsValid. -/

theorem GoodInput_iff (env : Env) (i : COutPoint) :
    GoodInput env i = true ↔
      ∃ cn, env.getUTXOCoins i = some cn ∧
        DIRECTSEND_CONFIRMATIONS_REQUIRED - 1 ≤ env.chainHeight - cn.nHeight + 1 := by
  unfold GoodInput
  cases hc : env.getUTXOCoins i with
  | none => simp
  | some cn => simp

theorem VOutLoop_eq (l : List CTxOut) (acc : Int) :
    CTxLockRequest.VOutLoop l acc =
      if l.all (fun t => t.fNormalPaymentScript || t.fUnspendable)
      then some (acc + TotalValueOut l) else none := by
  induction l generalizing acc with
  | nil => simp [CTxLockRequest.VOutLoop, TotalValueOut]
  | cons t rest ih =>
    by_cases hs : (t.fNormalPaymentScript || t.fUnspendable) = true
    · have hguard : (!t.fNormalPaymentScript && !t.fUnspendable) = false := by
        cases hn : t.fNormalPaymentScript <;> cases hu : t.fUnspendable <;>
          simp_all
      rw [CTxLockRequest.VOutLoop]
      rw [hguard]
      simp only [Bool.false_eq_true, if_false]
      rw [ih]
      simp [hs, TotalValueOut]
      split
      · ring_nf
      · rfl
    · have hguard : (!t.fNormalPaymentScript && !t.fUnspendable) = true := by
        cases hn : t.fNormalPaymentScript <;> cases hu : t.fUnspendable <;>
          simp_all
      rw [CTxLockRequest.VOutLoop]
      rw [hguard]
      simp [List.all_cons, hs]

theorem VInLoop_eq (env : Env) (l : List COutPoint) (acc : Int) :
    CTxLockRequest.VInLoop env l acc =
      if l.all (GoodInput env) then some (acc + TotalValueIn env l) else none := by
  induction l generalizing acc with
  | nil => simp [CTxLockRequest.VInLoop, TotalValueIn]
  | cons i rest ih =>
    rw [CTxLockRequest.VInLoop]
    cases hc : env.getUTXOCoins i with
    | none =>
      have : GoodInput env i = false := by simp [GoodInput, hc]
      simp [List.all_cons, this]
    | some cn =>
      by_cases hage :
          env.chainHeight - cn.nHeight + 1 < DIRECTSEND_CONFIRMATIONS_REQUIRED - 1
      · have : GoodInput env i = false := by
          simp [GoodInput, hc]
          omega
        simp [hage, List.all_cons, this]
      · have hgood : GoodInput env i = true := by
          simp [GoodInput, hc]
          omega
        dsimp only
        rw [if_neg hage]
        rw [ih]
        simp [List.all_cons, hgood, TotalValueIn, hc]
        split
        · ring_nf
        · rfl

/-- C4: a lock request is valid iff vout is non-empty, every output script
is a normal payment script or unspendable, the tx is final, every input
resolves to an unspent coin of age at least CONFIRMATIONS_REQUIRED - 1,
the total input value does not exceed the spork-configured maximum lock
value, and the fee is at least max(MIN_FEE, |vin| * MIN_FEE) for the
effective minimum-fee base; and ingestion of an invalid request fails
without touching the state. -/
theorem c4_request_valid_iff :
    (∀ (env : Env) (r : CTxLockRequest),
      r.IsValid env = true ↔
        (r.vout ≠ [] ∧ env.checkFinalTx r = true ∧
         (∀ t ∈ r.vout, t.fNormalPaymentScript = true ∨ t.fUnspendable = true) ∧
         (∀ i ∈ r.vin, ∃ cn, env.getUTXOCoins i = some cn ∧
            DIRECTSEND_CONFIRMATIONS_REQUIRED - 1 ≤ env.chainHeight - cn.nHeight + 1) ∧
         TotalValueIn env r.vin ≤ env.sporkMaxValue * COIN ∧
         max (EffMinFee env) ((r.vin.length : Int) * EffMinFee env) ≤
           TotalValueIn env r.vin - TotalValueOut r.vout)) ∧
    (∀ (fuel : Nat) (env : Env) (s : CDirectSend) (r : CTxLockRequest),
      r.IsValid env = false →
      CDirectSend.ProcessTxLockRequest fuel env s r = (s, false)) := by
  constructor
  · intro env r
    unfold CTxLockRequest.IsValid
    by_cases hempty : r.vout.length < 1
    · have : r.vout = [] := List.length_eq_zero.mp (by omega)
      simp [hempty, this]
    · have hne : r.vout ≠ [] := by
        intro hv
        rw [hv] at hempty
        simp at hempty
      rw [if_neg hempty]
      by_cases hfin : env.checkFinalTx r = true
      · have hnfin : (!env.checkFinalTx r) = false := by rw [hfin]; rfl
        rw [hnfin]
        simp only [Bool.false_eq_true, if_false]
        rw [VOutLoop_eq]
        by_cases hvout : r.vout.all (fun t => t.fNormalPaymentScript || t.fUnspendable)
        · rw [if_pos hvout]
          rw [VInLoop_eq]
          by_cases hvin : r.vin.all (GoodInput env)
          · rw [if_pos hvin]
            have hvoutP : ∀ t ∈ r.vout, t.fNormalPaymentScript = true ∨ t.fUnspendable = true := by
              intro t ht
              have := List.all_eq_true.mp hvout t ht
              cases hn : t.fNormalPaymentScript
              · right
                cases hu : t.fUnspendable
                · rw [hn, hu] at this; simp at this
                · rfl
              · left; rfl
            have hvinP : ∀ i ∈ r.vin, ∃ cn, env.getUTXOCoins i = some cn ∧
                DIRECTSEND_CONFIRMATIONS_REQUIRED - 1 ≤ env.chainHeight - cn.nHeight + 1 := by
              intro i hi
              exact (GoodInput_iff env i).mp (List.all_eq_true.mp hvin i hi)
            dsimp only
            by_cases hcap : 0 + TotalValueIn env r.vin > env.sporkMaxValue * COIN
            · rw [if_pos hcap]
              simp only [Bool.false_eq_true, false_iff]
              intro hconj
              have h5 := hconj.2.2.2.2.1
              linarith
            · rw [if_neg hcap]
              have hfee : r.GetMinFee env =
                  max (EffMinFee env) ((r.vin.length : Int) * EffMinFee env) := rfl
              by_cases hlow :
                  0 + TotalValueIn env r.vin - (0 + TotalValueOut r.vout) < r.GetMinFee env
              · rw [if_pos hlow]
                simp only [Bool.false_eq_true, false_iff]
                intro hconj
                have h6 := hconj.2.2.2.2.2
                rw [hfee] at hlow
                linarith
              · rw [if_neg hlow]
                simp only [true_iff]
                rw [hfee] at hlow
                push_neg at hlow hcap
                exact ⟨hne, hfin, hvoutP, hvinP, by linarith, by linarith⟩
          · rw [if_neg hvin]
            simp only [Bool.false_eq_true, if_false, false_iff]
            intro hconj
            apply hvin
            apply List.all_eq_true.mpr
            intro i hi
            exact (GoodInput_iff env i).mpr (hconj.2.2.2.1 i hi)
        · rw [if_neg hvout]
          simp only [Bool.false_eq_true, if_false, false_iff]
          intro hconj
          apply hvout
          apply List.all_eq_true.mpr
          intro t ht
          rcases hconj.2.2.1 t ht with h | h <;> simp [h]
      · have : env.checkFinalTx r = false := by
          cases h : env.checkFinalTx r
          · rfl
          · exact absurd h hfin
        simp [this]
  · intro fuel env s r hbad
    cases fuel with
    | zero => rfl
    | succ fuel =>
      rw [CDirectSend.ProcessTxLockRequest]
      unfold CDirectSend.CreateTxLockCandidate
      rw [hbad]
      simp

/-- Witness for C4 at a concrete invalid request (empty vout). -/
theorem c4_request_valid_iff_witness :
    CDirectSend.ProcessTxLockRequest 3 exEnv exState0 exBadReq = (exState0, false) :=
  c4_request_valid_iff.2 3 exEnv exState0 exBadReq (by decide)

/-!  C3 and C9: vote deduplication in ProcessMessage. -/

theorem ProcessMessage_mem_drop (fuel : Nat) (env : Env) (s : CDirectSend) (pv : Int)
    (v : CTxLockVote) (h : (mfind s.mapTxLockVotes v.GetHash).isSome = true) :
    CDirectSend.ProcessMessage fuel env s pv v = s := by
  unfold CDirectSend.ProcessMessage
  simp [h]

/-- C3: vote ingestion is idempotent: a vote whose identity hash is already
in votes_by_hash when the message arrives is dropped before any further
processing (the state is untouched), hence once the hash is present after
the first ingestion, ingesting the same vote any number of further times
leaves the state identical to ingesting it once. -/
theorem c3_vote_ingestion_idempotent :
    (∀ (fuel : Nat) (env : Env) (s : CDirectSend) (pv : Int) (v : CTxLockVote),
      (mfind s.mapTxLockVotes v.GetHash).isSome = true →
      CDirectSend.ProcessMessage fuel env s pv v = s) ∧
    (∀ (fuel : Nat) (env : Env) (s : CDirectSend) (pv : Int) (v : CTxLockVote) (n : Nat),
      (mfind (CDirectSend.ProcessMessage fuel env s pv v).mapTxLockVotes v.GetHash).isSome = true →
      Nat.iterate (fun t => CDirectSend.ProcessMessage fuel env t pv v) n
          (CDirectSend.ProcessMessage fuel env s pv v) =
        CDirectSend.ProcessMessage fuel env s pv v) := by
  constructor
  · exact ProcessMessage_mem_drop
  · intro fuel env s pv v n h
    induction n with
    | zero => rfl
    | succ n ih =>
      rw [Function.iterate_succ_apply]
      rw [ProcessMessage_mem_drop fuel env _ pv v h]
      exact ih

/-- Witness for C3: a second arrival of a stored vote leaves the state
unchanged. -/
theorem c3_vote_ingestion_idempotent_witness :
    CDirectSend.ProcessMessage 1 exEnv exStateV 70208 exVote = exStateV :=
  c3_vote_ingestion_idempotent.1 1 exEnv exStateV 70208 exVote (by decide)

/-- C9: the engine inserts an arriving vote into votes_by_hash before
validating it; when validation fails the vote nevertheless stays stored
(and nothing is attached to any candidate), and any later arrival of the
same vote is dropped as a duplicate. -/
theorem c9_invalid_vote_stored (fuel : Nat) (env : Env) (s : CDirectSend) (pv : Int)
    (v : CTxLockVote)
    (h1 : env.fLiteMode = false) (h2 : env.sporkDirectSendEnabled = true)
    (h3 : env.masternodeListSynced = true) (h4 : ¬ pv < MIN_DIRECTSEND_PROTO_VERSION)
    (h5 : mfind s.mapTxLockVotes v.GetHash = none)
    (h6 : v.IsValid env = false) :
    CDirectSend.ProcessMessage fuel env s pv v =
      {s with mapTxLockVotes := minsert s.mapTxLockVotes v.GetHash v} ∧
    mfind (CDirectSend.ProcessMessage fuel env s pv v).mapTxLockVotes v.GetHash = some v ∧
    (CDirectSend.ProcessMessage fuel env s pv v).mapTxLockCandidates = s.mapTxLockCandidates ∧
    (∀ (fuel2 : Nat) (env2 : Env) (s2 : CDirectSend) (pv2 : Int),
      (mfind s2.mapTxLockVotes v.GetHash).isSome = true →
      CDirectSend.ProcessMessage fuel2 env2 s2 pv2 v = s2) := by
  have hv : ∀ (fuelx : Nat) (sx : CDirectSend),
      CDirectSend.ProcessTxLockVote fuelx env sx v = (sx, false) := by
    intro fuelx sx
    cases fuelx with
    | zero => rfl
    | succ f => simp [CDirectSend.ProcessTxLockVote, h6]
  have hmain : CDirectSend.ProcessMessage fuel env s pv v =
      {s with mapTxLockVotes := minsert s.mapTxLockVotes v.GetHash v} := by
    unfold CDirectSend.ProcessMessage
    simp [h1, h2, h3, h4, h5, hv]
  refine ⟨hmain, ?_, ?_, ?_⟩
  · rw [hmain]
    exact mfind_minsert_of_none _ _ _ h5
  · rw [hmain]
  · intro fuel2 env2 s2 pv2 hmem
    exact ProcessMessage_mem_drop fuel2 env2 s2 pv2 v hmem

/-- Witness for C9: an invalid vote (unknown masternode) is stored in
votes_by_hash although ingestion failed. -/
theorem c9_invalid_vote_stored_witness :
    mfind (CDirectSend.ProcessMessage 1 exEnvNoMn exState0 70208 exVote).mapTxLockVotes
      exVote.GetHash = some exVote :=
  (c9_invalid_vote_stored 1 exEnvNoMn exState0 70208 exVote (by decide) (by decide)
    (by decide) (by decide) (by decide) (by decide)).2.1

/-!  C1: the no-double-vote invariant.  First the membership lemmas for the
map operations, then preservation of NoDoubleVote through every layer. -/

theorem mem_minsert {α β : Type} [DecidableEq α] {m : List (α × β)} {k : α} {v : β}
    {p : α × β} (h : p ∈ minsert m k v) : p ∈ m ∨ p = (k, v) := by
  unfold minsert at h
  by_cases hs : (mfind m k).isSome
  · rw [if_pos hs] at h; exact Or.inl h
  · rw [if_neg hs] at h
    rcases List.mem_cons.mp h with h1 | h1
    · exact Or.inr h1
    · exact Or.inl h1

theorem mem_massign {α β : Type} [DecidableEq α] {m : List (α × β)} {k : α} {v : β}
    {p : α × β} (h : p ∈ massign m k v) : p ∈ m ∨ p = (k, v) := by
  induction m with
  | nil =>
    unfold massign at h
    rcases List.mem_singleton.mp h with h1
    exact Or.inr h1
  | cons q r ih =>
    obtain ⟨a, b⟩ := q
    unfold massign at h
    by_cases hak : a = k
    · rw [if_pos hak] at h
      rcases List.mem_cons.mp h with h1 | h1
      · exact Or.inr h1
      · exact Or.inl (List.mem_cons_of_mem _ h1)
    · rw [if_neg hak] at h
      rcases List.mem_cons.mp h with h1 | h1
      · exact Or.inl (h1 ▸ List.mem_cons_self _ _)
      · rcases ih h1 with h2 | h2
        · exact Or.inl (List.mem_cons_of_mem _ h2)
        · exact Or.inr h2

theorem mem_merase {α β : Type} [DecidableEq α] {m : List (α × β)} {k : α}
    {p : α × β} (h : p ∈ merase m k) : p ∈ m := by
  induction m with
  | nil => exact h
  | cons q r ih =>
    obtain ⟨a, b⟩ := q
    unfold merase at h
    by_cases hak : a = k
    · rw [if_pos hak] at h
      exact List.mem_cons_of_mem _ (ih h)
    · rw [if_neg hak] at h
      rcases List.mem_cons.mp h with h1 | h1
      · exact h1 ▸ List.mem_cons_self _ _
      · exact List.mem_cons_of_mem _ (ih h1)

theorem map_fst_value_map {α β γ : Type} (m : List (α × β)) (f : α × β → γ) :
    (m.map (fun q => (q.1, f q))).map Prod.fst = m.map Prod.fst := by
  induction m with
  | nil => rfl
  | cons p r ih => simp [ih]

theorem lockKeysNodup_init (o : COutPoint) : LockKeysNodup (COutPointLock.init o) := by
  simp [LockKeysNodup, COutPointLock.init]

theorem lockKeysNodup_AddVote {l : COutPointLock} {v : CTxLockVote}
    (h : LockKeysNodup l) : LockKeysNodup (l.AddVote v).1 := by
  unfold COutPointLock.AddVote
  by_cases hs : (mfind l.mapMasternodeVotes v.outpointMasternode).isSome
  · rw [if_pos hs]; exact h
  · rw [if_neg hs]
    have hnone : mfind l.mapMasternodeVotes v.outpointMasternode = none :=
      Option.not_isSome_iff_eq_none.mp hs
    have hnot : v.outpointMasternode ∉ l.mapMasternodeVotes.map Prod.fst := by
      intro hmem
      rcases List.mem_map.mp hmem with ⟨p, hp, hfst⟩
      exact (mfind_eq_none_iff.mp hnone) p hp hfst
    exact List.nodup_cons.mpr ⟨hnot, h⟩

theorem lockKeysNodup_Mark {l : COutPointLock} (h : LockKeysNodup l) :
    LockKeysNodup l.MarkAsAttacked := h

theorem candOk_of_locks_nil {c : CTxLockCandidate} (h : c.mapOutPointLocks = []) :
    CandOk c := by
  intro p hp
  rw [h] at hp
  cases hp

theorem candOk_of_mfind {m : List (Hash × CTxLockCandidate)} {k : Hash}
    {c : CTxLockCandidate} (hm : CandsOk m) (h : mfind m k = some c) : CandOk c :=
  hm _ (mfind_mem h)

theorem candOk_AddOutPointLock {c : CTxLockCandidate} {o : COutPoint}
    (h : CandOk c) : CandOk (c.AddOutPointLock o) := by
  intro p hp
  unfold CTxLockCandidate.AddOutPointLock at hp
  rcases mem_minsert hp with h1 | h1
  · exact h p h1
  · rw [h1]
    exact lockKeysNodup_init o

theorem candOk_MarkOutpointAsAttacked {c : CTxLockCandidate} {o : COutPoint}
    (h : CandOk c) : CandOk (c.MarkOutpointAsAttacked o) := by
  unfold CTxLockCandidate.MarkOutpointAsAttacked
  cases hf : mfind c.mapOutPointLocks o with
  | none => exact h
  | some l =>
    intro p hp
    rcases mem_massign hp with h1 | h1
    · exact h p h1
    · rw [h1]
      exact lockKeysNodup_Mark (h _ (mfind_mem hf))

theorem candOk_AddVote {c : CTxLockCandidate} {v : CTxLockVote}
    (h : CandOk c) : CandOk (c.AddVote v).1 := by
  unfold CTxLockCandidate.AddVote
  cases hf : mfind c.mapOutPointLocks v.outpoint with
  | none => exact h
  | some l =>
    intro p hp
    rcases mem_massign hp with h1 | h1
    · exact h p h1
    · rw [h1]
      exact lockKeysNodup_AddVote (h _ (mfind_mem hf))

theorem candOk_SetConfirmedHeight {c : CTxLockCandidate} (x : Int)
    (h : CandOk c) : CandOk (c.SetConfirmedHeight x) := by
  intro p hp
  unfold CTxLockCandidate.SetConfirmedHeight at hp
  rcases List.mem_map.mp hp with ⟨q, hq, hpq⟩
  have hql := h q hq
  rw [← hpq]
  unfold LockKeysNodup at hql ⊢
  rw [map_fst_value_map]
  exact hql

theorem candsOk_massign {m : List (Hash × CTxLockCandidate)} {k : Hash}
    {c : CTxLockCandidate} (hm : CandsOk m) (hc : CandOk c) : CandsOk (massign m k c) := by
  intro p hp
  rcases mem_massign hp with h1 | h1
  · exact hm p h1
  · rw [h1]; exact hc

theorem candsOk_minsert {m : List (Hash × CTxLockCandidate)} {k : Hash}
    {c : CTxLockCandidate} (hm : CandsOk m) (hc : CandOk c) : CandsOk (minsert m k c) := by
  intro p hp
  rcases mem_minsert hp with h1 | h1
  · exact hm p h1
  · rw [h1]; exact hc

theorem candsOk_merase {m : List (Hash × CTxLockCandidate)} {k : Hash}
    (hm : CandsOk m) : CandsOk (merase m k) := by
  intro p hp
  exact hm p (mem_merase hp)

theorem nodv_CreateEmptyTxLockCandidate (env : Env) (s : CDirectSend) (txHash : Hash)
    (h : NoDoubleVote s) : NoDoubleVote (CDirectSend.CreateEmptyTxLockCandidate env s txHash) := by
  unfold CDirectSend.CreateEmptyTxLockCandidate
  by_cases hs : (mfind s.mapTxLockCandidates txHash).isSome
  · rw [if_pos hs]; exact h
  · rw [if_neg hs]
    exact candsOk_minsert h (candOk_of_locks_nil rfl)

theorem candOk_foldl_AddOutPointLock (l : List COutPoint) (c : CTxLockCandidate)
    (h : CandOk c) : CandOk (l.foldl (fun c o => c.AddOutPointLock o) c) := by
  induction l generalizing c with
  | nil => exact h
  | cons o r ih => exact ih _ (candOk_AddOutPointLock h)

theorem nodv_CreateTxLockCandidate (env : Env) (s : CDirectSend) (req : CTxLockRequest)
    (h : NoDoubleVote s) : NoDoubleVote (CDirectSend.CreateTxLockCandidate env s req).1 := by
  unfold CDirectSend.CreateTxLockCandidate
  split
  · exact h
  · split
    · exact candsOk_minsert h (candOk_foldl_AddOutPointLock _ _ (candOk_of_locks_nil rfl))
    · rename_i c0 hf
      have hc0 : CandOk c0 := candOk_of_mfind h hf
      split
      · dsimp only
        split
        · exact candsOk_massign h hc0
        · exact candsOk_massign h (candOk_foldl_AddOutPointLock _ _ hc0)
      · exact h

theorem nodv_VoteLoop (env : Env) (txHash : Hash) :
    ∀ (l : List COutPoint) (s : CDirectSend), NoDoubleVote s →
      NoDoubleVote (CDirectSend.VoteLoop env txHash l s) := by
  intro l
  induction l with
  | nil => intro s h; exact h
  | cons o rest ih =>
    intro s h
    rw [CDirectSend.VoteLoop]
    dsimp only
    split
    · exact h
    · split
      · exact ih s h
      · split
        · exact ih s h
        · split
          · exact ih s h
          · split
            · exact h
            · split
              · exact h
              · split
                · exact ih _ h
                · rename_i c hc
                  have hcands : CandOk c := candOk_of_mfind h hc
                  split
                  · exact ih _ (candsOk_massign h (candOk_AddVote hcands))
                  · exact ih _ (candsOk_massign h (candOk_AddVote hcands))

theorem nodv_Vote (env : Env) (s : CDirectSend) (txHash : Hash)
    (h : NoDoubleVote s) : NoDoubleVote (CDirectSend.Vote env s txHash) := by
  unfold CDirectSend.Vote
  split
  · exact h
  · split
    · exact h
    · split
      · exact h
      · exact nodv_VoteLoop env txHash _ s h

theorem nodv_CandidateSweep (env : Env) :
    ∀ (l : List (Hash × CTxLockCandidate)) (s : CDirectSend), NoDoubleVote s →
      NoDoubleVote (CDirectSend.CandidateSweep env l s) := by
  intro l
  induction l with
  | nil => intro s h; exact h
  | cons p rest ih =>
    intro s h
    obtain ⟨key, c⟩ := p
    rw [CDirectSend.CandidateSweep]
    split
    · exact ih _ (candsOk_merase h)
    · exact ih s h

theorem nodv_OrphanSweep (env : Env) :
    ∀ (l : List (VoteId × CTxLockVote)) (s : CDirectSend), NoDoubleVote s →
      NoDoubleVote (CDirectSend.OrphanSweep env l s) := by
  intro l
  induction l with
  | nil => intro s h; exact h
  | cons p rest ih =>
    intro s h
    obtain ⟨key, v⟩ := p
    rw [CDirectSend.OrphanSweep]
    split
    · exact ih _ h
    · exact ih s h

theorem nodv_CheckAndRemove (env : Env) (s : CDirectSend)
    (h : NoDoubleVote s) : NoDoubleVote (CDirectSend.CheckAndRemove env s) := by
  unfold CDirectSend.CheckAndRemove
  split
  · exact h
  · exact nodv_OrphanSweep env _ _ (nodv_CandidateSweep env _ s h)

theorem nodv_RCLoop (env : Env) (txHash : Hash) :
    ∀ (l : List COutPoint) (s : CDirectSend), NoDoubleVote s →
      NoDoubleVote (CDirectSend.RCLoop env txHash s l).1 := by
  intro l
  induction l with
  | nil => intro s h; exact h
  | cons txin rest ih =>
    intro s h
    rw [CDirectSend.RCLoop]
    split
    · split
      · rename_i c1 c2 hc1 hc2
        exact nodv_CheckAndRemove env _
          (candsOk_massign (candsOk_massign h
            (candOk_SetConfirmedHeight 0 (candOk_of_mfind h hc1)))
            (candOk_SetConfirmedHeight 0 (candOk_of_mfind h hc2)))
      · exact h
    · split
      · split
        · exact ih s h
        · exact h
      · exact ih s h

theorem nodv_ResolveConflicts (env : Env) (s : CDirectSend) (c : CTxLockCandidate)
    (h : NoDoubleVote s) : NoDoubleVote (CDirectSend.ResolveConflicts env s c).1 := by
  unfold CDirectSend.ResolveConflicts
  dsimp only
  split
  · exact h
  · split
    · rename_i heq
      have hx := nodv_RCLoop env c.GetHash
        ((c.txLockRequest.getD CTxLockRequest.empty).vin) s h
      rw [heq] at hx
      exact hx
    · rename_i s1 heq
      have h1 : NoDoubleVote s1 := by
        have hx := nodv_RCLoop env c.GetHash
          ((c.txLockRequest.getD CTxLockRequest.empty).vin) s h
        rw [heq] at hx
        exact hx
      split
      · exact h1
      · split
        · exact h1
        · exact h1

theorem nodv_LockTransactionInputs (env : Env) (s : CDirectSend) (c : CTxLockCandidate)
    (h : NoDoubleVote s) : NoDoubleVote (CDirectSend.LockTransactionInputs env s c) := by
  unfold CDirectSend.LockTransactionInputs
  split
  · exact h
  · split
    · exact h
    · exact h

theorem nodv_UpdateLockedTransaction (env : Env) (s : CDirectSend) (c : CTxLockCandidate)
    (h : NoDoubleVote s) : NoDoubleVote (CDirectSend.UpdateLockedTransaction env s c) := by
  unfold CDirectSend.UpdateLockedTransaction
  split
  · exact h
  · split
    · exact h
    · exact h

theorem nodv_TryToFinalizeLockCandidate (env : Env) (s : CDirectSend) (txHash : Hash)
    (h : NoDoubleVote s) :
    NoDoubleVote (CDirectSend.TryToFinalizeLockCandidate env s txHash) := by
  unfold CDirectSend.TryToFinalizeLockCandidate
  split
  · exact h
  · split
    · exact h
    · split
      · dsimp only
        split
        · exact nodv_UpdateLockedTransaction env _ _
            (nodv_LockTransactionInputs env _ _ (nodv_ResolveConflicts env s _ h))
        · exact nodv_ResolveConflicts env s _ h
      · exact h

theorem nodv_EquivocationScan (vote : CTxLockVote) :
    ∀ (hashes : List Hash) (s : CDirectSend), NoDoubleVote s →
      NoDoubleVote (CDirectSend.EquivocationScan vote hashes s) := by
  intro hashes
  induction hashes with
  | nil => intro s h; exact h
  | cons hd rest ih =>
    intro s h
    unfold CDirectSend.EquivocationScan at ih ⊢
    rw [List.foldl_cons]
    apply ih
    split
    · split
      · rename_i c2 hc2
        have hcand2 : CandOk c2 := candOk_of_mfind h hc2
        split
        · dsimp only
          split
          · rename_i cc hcc
            exact candsOk_massign
              (candsOk_massign h (candOk_MarkOutpointAsAttacked (candOk_of_mfind h hcc)))
              (candOk_MarkOutpointAsAttacked hcand2)
          · exact candsOk_massign h (candOk_MarkOutpointAsAttacked hcand2)
        · exact h
      · exact h
    · exact h

theorem nodv_OrphanRateCheck (env : Env) (s : CDirectSend) (mn : COutPoint)
    (h : NoDoubleVote s) : NoDoubleVote (CDirectSend.OrphanRateCheck env s mn).1 := by
  unfold CDirectSend.OrphanRateCheck
  dsimp only
  split
  · exact h
  · split
    · exact h
    · exact h

theorem nodv_Fueled : ∀ (fuel : Nat),
    (∀ (env : Env) (s : CDirectSend) (v : CTxLockVote), NoDoubleVote s →
      NoDoubleVote (CDirectSend.ProcessTxLockVote fuel env s v).1) ∧
    (∀ (env : Env) (s : CDirectSend) (req : CTxLockRequest), NoDoubleVote s →
      NoDoubleVote (CDirectSend.ProcessTxLockRequest fuel env s req).1) ∧
    (∀ (env : Env) (keys : List VoteId) (s : CDirectSend), NoDoubleVote s →
      NoDoubleVote (CDirectSend.POTVLoop fuel env keys s)) := by
  intro fuel
  induction fuel with
  | zero =>
    refine ⟨?_, ?_, ?_⟩
    · intro env s v h; exact h
    · intro env s req h; exact h
    · intro env keys s h
      cases keys with
      | nil => exact h
      | cons k rest => exact h
  | succ fuel ih =>
    obtain ⟨ihV, ihR, ihL⟩ := ih
    refine ⟨?_, ?_, ?_⟩
    · intro env s v h
      rw [CDirectSend.ProcessTxLockVote]
      dsimp only
      split
      · exact h
      · split
        · -- orphan branch
          split
          · split
            · split
              · exact ihR env _ _ (nodv_CreateEmptyTxLockCandidate env s v.txHash h)
              · exact nodv_OrphanRateCheck env _ _
                  (nodv_CreateEmptyTxLockCandidate env s v.txHash h)
            · exact nodv_OrphanRateCheck env _ _
                (nodv_CreateEmptyTxLockCandidate env s v.txHash h)
          · exact nodv_OrphanRateCheck env s _ h
        · -- attached branch
          split
          · exact h
          · cases hvo : mfind s.mapVotedOutpoints v.outpoint with
            | some hashes =>
              have hs1 : NoDoubleVote (CDirectSend.EquivocationScan v hashes s) :=
                nodv_EquivocationScan v hashes s h
              dsimp only
              split
              · exact hs1
              · rename_i cNow hcNow
                split
                · exact hs1
                · exact nodv_TryToFinalizeLockCandidate env _ _
                    (candsOk_massign hs1 (candOk_AddVote (candOk_of_mfind hs1 hcNow)))
            | none =>
              dsimp only
              split
              · exact h
              · rename_i cNow hcNow
                split
                · exact h
                · exact nodv_TryToFinalizeLockCandidate env _ _
                    (candsOk_massign h (candOk_AddVote (candOk_of_mfind h hcNow)))
    · intro env s req h
      rw [CDirectSend.ProcessTxLockRequest]
      dsimp only
      split
      · exact nodv_CreateTxLockCandidate env s req h
      · exact nodv_TryToFinalizeLockCandidate env _ _
          (ihL env _ _ (nodv_Vote env _ _ (nodv_CreateTxLockCandidate env s req h)))
    · intro env keys s h
      cases keys with
      | nil => exact h
      | cons k rest =>
        rw [CDirectSend.POTVLoop]
        split
        · exact ihL env rest s h
        · rename_i v hv
          dsimp only
          apply ihL
          split
          · exact ihV env s v h
          · exact ihV env s v h

theorem nodv_ProcessMessage (fuel : Nat) (env : Env) (s : CDirectSend) (pv : Int)
    (v : CTxLockVote) (h : NoDoubleVote s) :
    NoDoubleVote (CDirectSend.ProcessMessage fuel env s pv v) := by
  unfold CDirectSend.ProcessMessage
  split
  · exact h
  · split
    · exact h
    · split
      · exact h
      · split
        · exact h
        · split
          · exact h
          · exact (nodv_Fueled fuel).1 env _ v h

theorem nodv_votesFoldA (hNew : Int) : ∀ (ids : List VoteId) (s0 : CDirectSend),
    NoDoubleVote s0 →
    NoDoubleVote (ids.foldl (fun acc id =>
      match mfind acc.mapTxLockVotes id with
      | some w =>
        let m := massign acc.mapTxLockVotes id (w.SetConfirmedHeight hNew)
        {acc with mapTxLockVotes := m}
      | none => acc) s0) := by
  intro ids
  induction ids with
  | nil => intro s0 h; exact h
  | cons i rest ih =>
    intro s0 h
    rw [List.foldl_cons]
    apply ih
    split
    · exact h
    · exact h

theorem nodv_orphanFold (env : Env) (txHash : Hash) (hNew : Int) :
    ∀ (l : List (VoteId × CTxLockVote)) (s0 : CDirectSend), NoDoubleVote s0 →
    NoDoubleVote (l.foldl (fun acc p =>
      if p.2.txHash = txHash then
        let cur := (mfind acc.mapTxLockVotes p.1).getD (CDirectSend.DefaultVote env)
        let m := massign acc.mapTxLockVotes p.1 (cur.SetConfirmedHeight hNew)
        {acc with mapTxLockVotes := m}
      else acc) s0) := by
  intro l
  induction l with
  | nil => intro s0 h; exact h
  | cons p rest ih =>
    intro s0 h
    rw [List.foldl_cons]
    apply ih
    split
    · exact h
    · exact h

theorem nodv_SyncTransaction (env : Env) (s : CDirectSend) (txHash : Hash)
    (fCoinBase : Bool) (bh : Option Hash) (h : NoDoubleVote s) :
    NoDoubleVote (CDirectSend.SyncTransaction env s txHash fCoinBase bh) := by
  unfold CDirectSend.SyncTransaction
  split
  · exact h
  · dsimp only
    split
    · exact h
    · apply nodv_orphanFold
      split
      · exact h
      · rename_i c hc
        apply nodv_votesFoldA
        exact candsOk_massign h (candOk_SetConfirmedHeight _ (candOk_of_mfind h hc))

theorem nodv_UpdatedBlockTip (s : CDirectSend) (n : Int) (h : NoDoubleVote s) :
    NoDoubleVote (CDirectSend.UpdatedBlockTip s n) := h

theorem nodv_AcceptLockRequest (s : CDirectSend) (r : CTxLockRequest)
    (h : NoDoubleVote s) : NoDoubleVote (CDirectSend.AcceptLockRequest s r) := h

theorem nodv_RejectLockRequest (s : CDirectSend) (r : CTxLockRequest)
    (h : NoDoubleVote s) : NoDoubleVote (CDirectSend.RejectLockRequest s r) := h

/-- C1: per-input no-double-vote.  COutPointLock::AddVote returns false and
leaves the vote map unchanged when the signer is already present, and
returns true after inserting the vote otherwise; consequently each
validator appears at most once in any candidates[t].locks[o], and this
invariant is preserved by every engine operation (message processing,
request ingestion, GC, chain sync, tip updates, request bookkeeping). -/
theorem c1_no_double_vote :
    (∀ (l : COutPointLock) (v : CTxLockVote),
      l.HasMasternodeVoted v.outpointMasternode = true → l.AddVote v = (l, false)) ∧
    (∀ (l : COutPointLock) (v : CTxLockVote),
      l.HasMasternodeVoted v.outpointMasternode = false →
      l.AddVote v =
        ({l with mapMasternodeVotes := (v.outpointMasternode, v) :: l.mapMasternodeVotes}, true)) ∧
    (∀ (fuel : Nat) (env : Env) (s : CDirectSend) (pv : Int) (v : CTxLockVote),
      NoDoubleVote s → NoDoubleVote (CDirectSend.ProcessMessage fuel env s pv v)) ∧
    (∀ (fuel : Nat) (env : Env) (s : CDirectSend) (req : CTxLockRequest),
      NoDoubleVote s → NoDoubleVote (CDirectSend.ProcessTxLockRequest fuel env s req).1) ∧
    (∀ (env : Env) (s : CDirectSend),
      NoDoubleVote s → NoDoubleVote (CDirectSend.CheckAndRemove env s)) ∧
    (∀ (env : Env) (s : CDirectSend) (txHash : Hash) (fcb : Bool) (bh : Option Hash),
      NoDoubleVote s → NoDoubleVote (CDirectSend.SyncTransaction env s txHash fcb bh)) ∧
    (∀ (s : CDirectSend) (n : Int),
      NoDoubleVote s → NoDoubleVote (CDirectSend.UpdatedBlockTip s n)) ∧
    (∀ (s : CDirectSend) (r : CTxLockRequest),
      NoDoubleVote s → NoDoubleVote (CDirectSend.AcceptLockRequest s r)) ∧
    (∀ (s : CDirectSend) (r : CTxLockRequest),
      NoDoubleVote s → NoDoubleVote (CDirectSend.RejectLockRequest s r)) := by
  refine ⟨?_, ?_, nodv_ProcessMessage, fun fuel => (nodv_Fueled fuel).2.1,
    nodv_CheckAndRemove, nodv_SyncTransaction, nodv_UpdatedBlockTip,
    nodv_AcceptLockRequest, nodv_RejectLockRequest⟩
  · intro l v hmem
    unfold COutPointLock.AddVote
    unfold COutPointLock.HasMasternodeVoted at hmem
    rw [if_pos hmem]
  · intro l v hmem
    unfold COutPointLock.AddVote
    unfold COutPointLock.HasMasternodeVoted at hmem
    rw [hmem]
    simp

/-- Witness for C1: the invariant holds in the empty state and after a
message ingestion from it. -/
theorem c1_no_double_vote_witness :
    NoDoubleVote exState0 ∧
    NoDoubleVote (CDirectSend.ProcessMessage 2 exEnv exState0 70208 exVote) :=
  ⟨by decide, c1_no_double_vote.2.2.1 2 exEnv exState0 70208 exVote (by decide)⟩

/-!  Lemmas about the GC sweep (CheckAndRemove), shared by C7, C2 and C8. -/

theorem mfind_merase_none {α β : Type} [DecidableEq α] {m : List (α × β)} {k k' : α}
    (h : mfind m k' = none) : mfind (merase m k) k' = none := by
  rw [mfind_eq_none_iff] at h ⊢
  intro p hp
  exact h p (mem_merase hp)

theorem mfind_filter_none_of_none {α β : Type} [DecidableEq α] {m : List (α × β)}
    {k : α} {p : α × β → Bool} (h : mfind m k = none) : mfind (m.filter p) k = none := by
  rw [mfind_eq_none_iff] at h ⊢
  intro q hq
  exact h q (List.mem_filter.mp hq).1

theorem mfind_filter_none_of_all {α β : Type} [DecidableEq α] {m : List (α × β)}
    {k : α} {p : α × β → Bool} (h : ∀ v, (k, v) ∈ m → p (k, v) = false) :
    mfind (m.filter p) k = none := by
  rw [mfind_eq_none_iff]
  intro q hq
  intro hqk
  have hmem := (List.mem_filter.mp hq).1
  have hptrue := (List.mem_filter.mp hq).2
  have : q = (k, q.2) := by
    rw [← hqk]
  rw [this] at hmem hptrue
  rw [h q.2 hmem] at hptrue
  cases hptrue

theorem mfind_filter_sub {α β : Type} [DecidableEq α] {m : List (α × β)}
    {k : α} {v : β} {p : α × β → Bool}
    (h : mfind (m.filter p) k = some v) : (k, v) ∈ m := by
  exact (List.mem_filter.mp (mfind_mem h)).1

theorem mfind_foldl_merase_none {α β γ : Type} [DecidableEq α]
    (f : γ → α) :
    ∀ (L : List γ) (m : List (α × β)) (k : α), mfind m k = none →
      mfind (L.foldl (fun m p => merase m (f p)) m) k = none := by
  intro L
  induction L with
  | nil => intro m k h; exact h
  | cons x rest ih =>
    intro m k h
    rw [List.foldl_cons]
    exact ih _ _ (mfind_merase_none h)

theorem mfind_foldl_merase_of_mem {α β γ : Type} [DecidableEq α]
    (f : γ → α) :
    ∀ (L : List γ) (m : List (α × β)) (k : α), (∃ x ∈ L, f x = k) →
      mfind (L.foldl (fun m p => merase m (f p)) m) k = none := by
  intro L
  induction L with
  | nil =>
    intro m k h
    rcases h with ⟨x, hx, _⟩
    cases hx
  | cons x rest ih =>
    intro m k h
    rw [List.foldl_cons]
    rcases h with ⟨y, hy, hyk⟩
    rcases List.mem_cons.mp hy with h1 | h1
    · rw [h1] at hyk
      rw [hyk]
      exact mfind_foldl_merase_none f rest _ k (mfind_merase_self m k)
    · exact ih _ k ⟨y, h1, hyk⟩

theorem mfind_foldl_merase_sub {α β γ : Type} [DecidableEq α]
    (f : γ → α) :
    ∀ (L : List γ) (m : List (α × β)) (k : α) (v : β),
      mfind (L.foldl (fun m p => merase m (f p)) m) k = some v →
      mfind m k = some v := by
  intro L
  induction L with
  | nil => intro m k v h; exact h
  | cons x rest ih =>
    intro m k v h
    rw [List.foldl_cons] at h
    exact mfind_merase_sub (ih _ _ _ h)

/-- During the candidate sweep only candidate-related maps change; the tip
height, the vote maps and the orphan-rate map are untouched. -/
theorem cs_untouched (env : Env) :
    ∀ (l : List (Hash × CTxLockCandidate)) (s : CDirectSend),
      (CDirectSend.CandidateSweep env l s).nCachedBlockHeight = s.nCachedBlockHeight ∧
      (CDirectSend.CandidateSweep env l s).mapTxLockVotes = s.mapTxLockVotes ∧
      (CDirectSend.CandidateSweep env l s).mapTxLockVotesOrphan = s.mapTxLockVotesOrphan ∧
      (CDirectSend.CandidateSweep env l s).mapMasternodeOrphanVotes = s.mapMasternodeOrphanVotes := by
  intro l
  induction l with
  | nil => intro s; exact ⟨rfl, rfl, rfl, rfl⟩
  | cons p rest ih =>
    intro s
    obtain ⟨key, c⟩ := p
    rw [CDirectSend.CandidateSweep]
    split
    · exact ih _
    · exact ih s

/-- The candidate sweep only erases: none-lookups stay none in each of the
five candidate-related maps. -/
theorem cs_none_mono (env : Env) :
    ∀ (l : List (Hash × CTxLockCandidate)) (s : CDirectSend),
      (∀ k, mfind s.mapTxLockCandidates k = none →
        mfind (CDirectSend.CandidateSweep env l s).mapTxLockCandidates k = none) ∧
      (∀ o, mfind s.mapLockedOutpoints o = none →
        mfind (CDirectSend.CandidateSweep env l s).mapLockedOutpoints o = none) ∧
      (∀ o, mfind s.mapVotedOutpoints o = none →
        mfind (CDirectSend.CandidateSweep env l s).mapVotedOutpoints o = none) ∧
      (∀ k, mfind s.mapLockRequestAccepted k = none →
        mfind (CDirectSend.CandidateSweep env l s).mapLockRequestAccepted k = none) ∧
      (∀ k, mfind s.mapLockRequestRejected k = none →
        mfind (CDirectSend.CandidateSweep env l s).mapLockRequestRejected k = none) := by
  intro l
  induction l with
  | nil =>
    intro s
    exact ⟨fun k h => h, fun o h => h, fun o h => h, fun k h => h, fun k h => h⟩
  | cons p rest ih =>
    intro s
    obtain ⟨key, c⟩ := p
    rw [CDirectSend.CandidateSweep]
    split
    · refine ⟨?_, ?_, ?_, ?_, ?_⟩
      · intro k h
        exact (ih _).1 k (mfind_merase_none h)
      · intro o h
        exact (ih _).2.1 o (mfind_foldl_merase_none Prod.fst _ _ o h)
      · intro o h
        exact (ih _).2.2.1 o (mfind_foldl_merase_none Prod.fst _ _ o h)
      · intro k h
        exact (ih _).2.2.2.1 k (mfind_merase_none h)
      · intro k h
        exact (ih _).2.2.2.2 k (mfind_merase_none h)
    · exact ih s

/-- The candidate sweep does not create locked-outpoint entries: a
locked-outpoint binding after the sweep existed before it. -/
theorem cs_locked_sub (env : Env) :
    ∀ (l : List (Hash × CTxLockCandidate)) (s : CDirectSend) (o : COutPoint) (x : Hash),
      mfind (CDirectSend.CandidateSweep env l s).mapLockedOutpoints o = some x →
      mfind s.mapLockedOutpoints o = some x := by
  intro l
  induction l with
  | nil => intro s o x h; exact h
  | cons p rest ih =>
    intro s o x h
    obtain ⟨key, c⟩ := p
    rw [CDirectSend.CandidateSweep] at h
    split at h
    · exact mfind_foldl_merase_sub Prod.fst _ _ _ _ (ih _ _ _ h)
    · exact ih _ _ _ h

/-- An expired candidate entry in the swept list is fully evicted: the
candidate itself, its outpoints from the locked and voted maps, and its
request-map entries keyed by its hash. -/
theorem cs_evicts (env : Env) :
    ∀ (l : List (Hash × CTxLockCandidate)) (s : CDirectSend) (k : Hash)
      (c : CTxLockCandidate), (k, c) ∈ l →
      c.IsExpired env s.nCachedBlockHeight = true →
      mfind (CDirectSend.CandidateSweep env l s).mapTxLockCandidates k = none ∧
      (∀ o, o ∈ c.mapOutPointLocks.map Prod.fst →
        mfind (CDirectSend.CandidateSweep env l s).mapLockedOutpoints o = none ∧
        mfind (CDirectSend.CandidateSweep env l s).mapVotedOutpoints o = none) ∧
      mfind (CDirectSend.CandidateSweep env l s).mapLockRequestAccepted c.GetHash = none ∧
      mfind (CDirectSend.CandidateSweep env l s).mapLockRequestRejected c.GetHash = none := by
  intro l
  induction l with
  | nil =>
    intro s k c hmem
    cases hmem
  | cons p rest ih =>
    intro s k c hmem hexp
    obtain ⟨key, c0⟩ := p
    rcases List.mem_cons.mp hmem with h1 | h1
    · have hk : key = k := (congrArg Prod.fst h1).symm
      have hc : c0 = c := (congrArg Prod.snd h1).symm
      rw [CDirectSend.CandidateSweep]
      rw [if_pos (by rw [hc]; exact hexp)]
      subst hk
      subst hc
      refine ⟨?_, ?_, ?_, ?_⟩
      · exact (cs_none_mono env rest _).1 _ (mfind_merase_self _ _)
      · intro o ho
        rcases List.mem_map.mp ho with ⟨q, hq, hqo⟩
        constructor
        · exact (cs_none_mono env rest _).2.1 o
            (mfind_foldl_merase_of_mem Prod.fst _ _ o ⟨q, hq, hqo⟩)
        · exact (cs_none_mono env rest _).2.2.1 o
            (mfind_foldl_merase_of_mem Prod.fst _ _ o ⟨q, hq, hqo⟩)
      · exact (cs_none_mono env rest _).2.2.2.1 _ (mfind_merase_self _ _)
      · exact (cs_none_mono env rest _).2.2.2.2 _ (mfind_merase_self _ _)
    · rw [CDirectSend.CandidateSweep]
      split
      · exact ih _ k c h1 hexp
      · exact ih s k c h1 hexp

/-- The orphan sweep only touches the two vote maps. -/
theorem os_untouched (env : Env) :
    ∀ (l : List (VoteId × CTxLockVote)) (s : CDirectSend),
      (CDirectSend.OrphanSweep env l s).mapTxLockCandidates = s.mapTxLockCandidates ∧
      (CDirectSend.OrphanSweep env l s).mapLockedOutpoints = s.mapLockedOutpoints ∧
      (CDirectSend.OrphanSweep env l s).mapVotedOutpoints = s.mapVotedOutpoints ∧
      (CDirectSend.OrphanSweep env l s).mapLockRequestAccepted = s.mapLockRequestAccepted ∧
      (CDirectSend.OrphanSweep env l s).mapLockRequestRejected = s.mapLockRequestRejected := by
  intro l
  induction l with
  | nil => intro s; exact ⟨rfl, rfl, rfl, rfl, rfl⟩
  | cons p rest ih =>
    intro s
    obtain ⟨key, v⟩ := p
    rw [CDirectSend.OrphanSweep]
    split
    · exact ih _
    · exact ih s

/-- The orphan sweep only erases entries of mapTxLockVotes. -/
theorem os_votes_none (env : Env) :
    ∀ (l : List (VoteId × CTxLockVote)) (s : CDirectSend) (k : VoteId),
      mfind s.mapTxLockVotes k = none →
      mfind (CDirectSend.OrphanSweep env l s).mapTxLockVotes k = none := by
  intro l
  induction l with
  | nil => intro s k h; exact h
  | cons p rest ih =>
    intro s k h
    obtain ⟨key, v⟩ := p
    rw [CDirectSend.OrphanSweep]
    split
    · exact ih _ k (mfind_merase_none h)
    · exact ih s k h

theorem os_votes_sub (env : Env) :
    ∀ (l : List (VoteId × CTxLockVote)) (s : CDirectSend) (k : VoteId) (v : CTxLockVote),
      mfind (CDirectSend.OrphanSweep env l s).mapTxLockVotes k = some v →
      mfind s.mapTxLockVotes k = some v := by
  intro l
  induction l with
  | nil => intro s k v h; exact h
  | cons p rest ih =>
    intro s k v h
    obtain ⟨key, w⟩ := p
    rw [CDirectSend.OrphanSweep] at h
    split at h
    · exact mfind_merase_sub (ih _ _ _ h)
    · exact ih _ _ _ h

/-- With a synced masternode list, the candidate-related maps of the state
after CheckAndRemove are exactly those left by the candidate sweep. -/
theorem car_fields (env : Env) (s : CDirectSend) (hsync : env.masternodeListSynced = true) :
    (CDirectSend.CheckAndRemove env s).mapTxLockCandidates =
      (CDirectSend.CandidateSweep env s.mapTxLockCandidates s).mapTxLockCandidates ∧
    (CDirectSend.CheckAndRemove env s).mapLockedOutpoints =
      (CDirectSend.CandidateSweep env s.mapTxLockCandidates s).mapLockedOutpoints ∧
    (CDirectSend.CheckAndRemove env s).mapVotedOutpoints =
      (CDirectSend.CandidateSweep env s.mapTxLockCandidates s).mapVotedOutpoints ∧
    (CDirectSend.CheckAndRemove env s).mapLockRequestAccepted =
      (CDirectSend.CandidateSweep env s.mapTxLockCandidates s).mapLockRequestAccepted ∧
    (CDirectSend.CheckAndRemove env s).mapLockRequestRejected =
      (CDirectSend.CandidateSweep env s.mapTxLockCandidates s).mapLockRequestRejected := by
  unfold CDirectSend.CheckAndRemove
  have hb : (!env.masternodeListSynced) = false := by rw [hsync]; rfl
  rw [hb]
  simp only [Bool.false_eq_true, if_false]
  refine ⟨?_, ?_, ?_, ?_, ?_⟩
  · rw [(os_untouched env _ _).1]
  · rw [(os_untouched env _ _).2.1]
  · rw [(os_untouched env _ _).2.2.1]
  · rw [(os_untouched env _ _).2.2.2.1]
  · rw [(os_untouched env _ _).2.2.2.2]

/-- With a synced masternode list, every stored vote whose entries are all
expired at the cached tip height is gone from mapTxLockVotes after
CheckAndRemove. -/
theorem car_votes_none_of_expired (env : Env) (s : CDirectSend) (id : VoteId)
    (hsync : env.masternodeListSynced = true)
    (hall : ∀ w, (id, w) ∈ s.mapTxLockVotes →
      w.IsExpired env s.nCachedBlockHeight = true) :
    mfind (CDirectSend.CheckAndRemove env s).mapTxLockVotes id = none := by
  unfold CDirectSend.CheckAndRemove
  have hb : (!env.masternodeListSynced) = false := by rw [hsync]; rfl
  rw [hb]
  simp only [Bool.false_eq_true, if_false]
  apply mfind_filter_none_of_none
  apply os_votes_none
  have hcs := cs_untouched env s.mapTxLockCandidates s
  apply mfind_filter_none_of_all
  intro w hw
  rw [hcs.2.1] at hw
  rw [hcs.1]
  rw [hall w hw]
  rfl

/-- CheckAndRemove never creates locked-outpoint entries. -/
theorem car_locked_sub (env : Env) (s : CDirectSend) (o : COutPoint) (x : Hash)
    (h : mfind (CDirectSend.CheckAndRemove env s).mapLockedOutpoints o = some x) :
    mfind s.mapLockedOutpoints o = some x := by
  unfold CDirectSend.CheckAndRemove at h
  split at h
  · exact h
  · dsimp only at h
    rw [(os_untouched env _ _).2.1] at h
    exact cs_locked_sub env _ _ _ _ h

/-- C7: after update_tip(h) and the GC sweep, an expired candidate is gone
from the candidate map, each of its inputs is removed from the locked and
voted outpoint maps, its entries are erased from the accepted and rejected
request maps, and (when the stored votes' confirmed heights track the
candidate's, as SyncTransaction establishes) all of its votes are gone from
votes_by_hash. -/
theorem c7_expiry_gc (env : Env) (s : CDirectSend) (hNew : Int) (t : Hash)
    (c : CTxLockCandidate) (req : CTxLockRequest)
    (hsync : env.masternodeListSynced = true)
    (hfind : mfind s.mapTxLockCandidates t = some c)
    (hreq : c.txLockRequest = some req) (hrh : req.hash = t)
    (hconf : c.nConfirmedHeight ≠ -1)
    (hexp : hNew - c.nConfirmedHeight > env.keepLock)
    (hcoh : ∀ p ∈ s.mapTxLockVotes, p.1 ∈ AttachedVoteIds c →
      p.2.nConfirmedHeight = c.nConfirmedHeight) :
    mfind (CDirectSend.CheckAndRemove env
      (CDirectSend.UpdatedBlockTip s hNew)).mapTxLockCandidates t = none ∧
    (∀ o ∈ c.mapOutPointLocks.map Prod.fst,
      mfind (CDirectSend.CheckAndRemove env
        (CDirectSend.UpdatedBlockTip s hNew)).mapLockedOutpoints o = none ∧
      mfind (CDirectSend.CheckAndRemove env
        (CDirectSend.UpdatedBlockTip s hNew)).mapVotedOutpoints o = none) ∧
    mfind (CDirectSend.CheckAndRemove env
      (CDirectSend.UpdatedBlockTip s hNew)).mapLockRequestAccepted t = none ∧
    mfind (CDirectSend.CheckAndRemove env
      (CDirectSend.UpdatedBlockTip s hNew)).mapLockRequestRejected t = none ∧
    (∀ id ∈ AttachedVoteIds c,
      mfind (CDirectSend.CheckAndRemove env
        (CDirectSend.UpdatedBlockTip s hNew)).mapTxLockVotes id = none) := by
  have hmem : (t, c) ∈ (CDirectSend.UpdatedBlockTip s hNew).mapTxLockCandidates :=
    mfind_mem hfind
  have hexpired : c.IsExpired env
      (CDirectSend.UpdatedBlockTip s hNew).nCachedBlockHeight = true := by
    unfold CTxLockCandidate.IsExpired
    simp only [decide_eq_true_eq]
    exact ⟨hconf, hexp⟩
  have hev := cs_evicts env (CDirectSend.UpdatedBlockTip s hNew).mapTxLockCandidates
    (CDirectSend.UpdatedBlockTip s hNew) t c hmem hexpired
  have hf := car_fields env (CDirectSend.UpdatedBlockTip s hNew) hsync
  have hgh : c.GetHash = t := by
    unfold CTxLockCandidate.GetHash
    rw [hreq]
    exact hrh
  refine ⟨?_, ?_, ?_, ?_, ?_⟩
  · rw [hf.1]
    exact hev.1
  · intro o ho
    constructor
    · rw [hf.2.1]
      exact (hev.2.1 o ho).1
    · rw [hf.2.2.1]
      exact (hev.2.1 o ho).2
  · rw [hf.2.2.2.1]
    rw [← hgh]
    exact hev.2.2.1
  · rw [hf.2.2.2.2]
    rw [← hgh]
    exact hev.2.2.2
  · intro id hid
    apply car_votes_none_of_expired env _ id hsync
    intro w hw
    have hh := hcoh (id, w) hw hid
    unfold CTxLockVote.IsExpired
    simp only [decide_eq_true_eq]
    rw [hh]
    exact ⟨hconf, hexp⟩

/-- Witness for C7 at a concrete expired candidate with one attached vote. -/
theorem c7_expiry_gc_witness :
    mfind (CDirectSend.CheckAndRemove exEnv
      (CDirectSend.UpdatedBlockTip exState7 130)).mapTxLockCandidates 1 = none ∧
    (∀ id ∈ AttachedVoteIds exCand7,
      mfind (CDirectSend.CheckAndRemove exEnv
        (CDirectSend.UpdatedBlockTip exState7 130)).mapTxLockVotes id = none) :=
  ⟨(c7_expiry_gc exEnv exState7 130 1 exCand7 exReq7 (by decide) (by decide) (by decide)
      (by decide) (by decide) (by decide) (by decide)).1,
   (c7_expiry_gc exEnv exState7 130 1 exCand7 exReq7 (by decide) (by decide) (by decide)
      (by decide) (by decide) (by decide) (by decide)).2.2.2.2⟩

/-!  C2 and C8: the completed-vs-completed conflict branch of
ResolveConflicts, and SetConfirmedHeight propagation. -/

theorem mfind_minsert_isSome {α β : Type} [DecidableEq α] (m : List (α × β)) (k : α)
    (v : β) : (mfind (minsert m k v) k).isSome = true := by
  unfold minsert
  by_cases hs : (mfind m k).isSome
  · rw [if_pos hs]; exact hs
  · rw [if_neg hs]
    rw [mfind_cons]
    rw [if_pos rfl]
    rfl

theorem mfind_minsert_ne {α β : Type} [DecidableEq α] (m : List (α × β)) (k k' : α)
    (v : β) (h : k ≠ k') : mfind (minsert m k v) k' = mfind m k' := by
  unfold minsert
  split
  · rfl
  · rw [mfind_cons]
    rw [if_neg h]

theorem car_unsynced (env : Env) (s : CDirectSend)
    (h : env.masternodeListSynced = false) :
    CDirectSend.CheckAndRemove env s = s := by
  unfold CDirectSend.CheckAndRemove
  rw [h]
  rfl

/-- Walking the ResolveConflicts input loop up to the first input whose
completed lock conflicts: the loop returns failure with both candidates
stamped confirmed_height = 0, the GC run, and both requests recorded as
rejected. -/
theorem RCLoop_conflict_facts (env : Env) (txHash : Hash) (t2 : Hash)
    (c1 c2 : CTxLockCandidate) (o : COutPoint) :
    ∀ (pre : List COutPoint) (post : List COutPoint) (s : CDirectSend),
    (∀ i ∈ pre, (mfind s.mapLockedOutpoints i = none ∨
        mfind s.mapLockedOutpoints i = some txHash) ∧
      (env.mempoolNextTx i = none ∨ env.mempoolNextTx i = some txHash)) →
    mfind s.mapLockedOutpoints o = some t2 →
    txHash ≠ t2 →
    mfind s.mapTxLockCandidates txHash = some c1 →
    mfind s.mapTxLockCandidates t2 = some c2 →
    CDirectSend.RCLoop env txHash s (pre ++ o :: post) =
      (let s2 := CDirectSend.CheckAndRemove env
        {s with mapTxLockCandidates := massign (massign s.mapTxLockCandidates txHash (c1.SetConfirmedHeight 0)) t2 (c2.SetConfirmedHeight 0)}
       ({s2 with mapLockRequestRejected := minsert (minsert s2.mapLockRequestRejected txHash (c1.txLockRequest.getD CTxLockRequest.empty)) t2 (c2.txLockRequest.getD CTxLockRequest.empty)}, some false)) := by
  intro pre
  induction pre with
  | nil =>
    intro post s hpre hlock hne hc1 hc2
    rw [List.nil_append]
    rw [CDirectSend.RCLoop]
    rw [hlock]
    simp only [hne, ne_eq, not_false_eq_true, if_true]
    rw [hc1, hc2]
  | cons i rest ih =>
    intro post s hpre hlock hne hc1 hc2
    rw [List.cons_append]
    rw [CDirectSend.RCLoop]
    have hi := hpre i (List.mem_cons_self i rest)
    have htail : ∀ j ∈ rest, (mfind s.mapLockedOutpoints j = none ∨
        mfind s.mapLockedOutpoints j = some txHash) ∧
        (env.mempoolNextTx j = none ∨ env.mempoolNextTx j = some txHash) :=
      fun j hj => hpre j (List.mem_cons_of_mem i hj)
    have hmp : (match env.mempoolNextTx i with
        | some hm => if txHash = hm then CDirectSend.RCLoop env txHash s (rest ++ o :: post)
          else (s, some false)
        | none => CDirectSend.RCLoop env txHash s (rest ++ o :: post)) =
        CDirectSend.RCLoop env txHash s (rest ++ o :: post) := by
      rcases hi.2 with hm | hm
      · rw [hm]
      · rw [hm]
        dsimp only
        rw [if_pos rfl]
    rcases hi.1 with hl | hl
    · rw [hl]
      rw [hmp]
      exact ih post s htail hlock hne hc1 hc2
    · rw [hl]
      simp only [ne_eq, not_true_eq_false, if_false]
      rw [hmp]
      exact ih post s htail hlock hne hc1 hc2

/-- C2: when try_finalize runs on an all-ready candidate one of whose
inputs is already completed-locked by a different transaction, the engine
stamps both candidates with confirmed_height 0 (expired), runs the GC
sweep (which evicts both candidates and clears the locked input), records
both requests in rejected_requests, and fails without locking any input of
the current candidate. -/
theorem c2_conflict_with_completed (env : Env) (s : CDirectSend) (txHash t2 : Hash)
    (c c2 : CTxLockCandidate) (req : CTxLockRequest) (pre post : List COutPoint)
    (o : COutPoint)
    (hspork : env.sporkDirectSendEnabled = true)
    (hsync : env.masternodeListSynced = true)
    (hfind : mfind s.mapTxLockCandidates txHash = some c)
    (hreq : c.txLockRequest = some req) (hrh : req.hash = txHash)
    (hready : c.IsAllOutPointsReady = true)
    (hnl : CDirectSend.IsLockedDirectSendTransaction env s txHash = false)
    (hvin : req.vin = pre ++ o :: post)
    (hpre : ∀ i ∈ pre, (mfind s.mapLockedOutpoints i = none ∨
        mfind s.mapLockedOutpoints i = some txHash) ∧
      (env.mempoolNextTx i = none ∨ env.mempoolNextTx i = some txHash))
    (hlock : mfind s.mapLockedOutpoints o = some t2)
    (hne : txHash ≠ t2)
    (hc2 : mfind s.mapTxLockCandidates t2 = some c2)
    (htip : env.keepLock < s.nCachedBlockHeight)
    (ho2 : o ∈ c2.mapOutPointLocks.map Prod.fst) :
    (mfind (CDirectSend.TryToFinalizeLockCandidate env s txHash).mapLockRequestRejected
      txHash).isSome = true ∧
    (mfind (CDirectSend.TryToFinalizeLockCandidate env s txHash).mapLockRequestRejected
      t2).isSome = true ∧
    mfind (CDirectSend.TryToFinalizeLockCandidate env s txHash).mapTxLockCandidates
      txHash = none ∧
    mfind (CDirectSend.TryToFinalizeLockCandidate env s txHash).mapTxLockCandidates
      t2 = none ∧
    mfind (CDirectSend.TryToFinalizeLockCandidate env s txHash).mapLockedOutpoints
      o = none ∧
    (∀ i x, mfind (CDirectSend.TryToFinalizeLockCandidate env s txHash).mapLockedOutpoints
      i = some x → mfind s.mapLockedOutpoints i = some x) := by
  have hgh : c.GetHash = txHash := by
    unfold CTxLockCandidate.GetHash
    rw [hreq]
    exact hrh
  have hget : c.txLockRequest.getD CTxLockRequest.empty = req := by
    rw [hreq]
    rfl
  have hrc := RCLoop_conflict_facts env txHash t2 c c2 o pre post s hpre hlock hne hfind hc2
  have hres : CDirectSend.ResolveConflicts env s c =
      ({CDirectSend.CheckAndRemove env {s with mapTxLockCandidates := massign (massign s.mapTxLockCandidates txHash (c.SetConfirmedHeight 0)) t2 (c2.SetConfirmedHeight 0)} with mapLockRequestRejected := minsert (minsert (CDirectSend.CheckAndRemove env {s with mapTxLockCandidates := massign (massign s.mapTxLockCandidates txHash (c.SetConfirmedHeight 0)) t2 (c2.SetConfirmedHeight 0)}).mapLockRequestRejected txHash (c.txLockRequest.getD CTxLockRequest.empty)) t2 (c2.txLockRequest.getD CTxLockRequest.empty)}, false) := by
    unfold CDirectSend.ResolveConflicts
    have hb : (!c.IsAllOutPointsReady) = false := by rw [hready]; rfl
    rw [hb]
    simp only [Bool.false_eq_true, if_false]
    rw [hgh, hget, hvin]
    rw [hrc]
    rw [hget]
  have hfin : CDirectSend.TryToFinalizeLockCandidate env s txHash =
      {CDirectSend.CheckAndRemove env {s with mapTxLockCandidates := massign (massign s.mapTxLockCandidates txHash (c.SetConfirmedHeight 0)) t2 (c2.SetConfirmedHeight 0)} with mapLockRequestRejected := minsert (minsert (CDirectSend.CheckAndRemove env {s with mapTxLockCandidates := massign (massign s.mapTxLockCandidates txHash (c.SetConfirmedHeight 0)) t2 (c2.SetConfirmedHeight 0)}).mapLockRequestRejected txHash (c.txLockRequest.getD CTxLockRequest.empty)) t2 (c2.txLockRequest.getD CTxLockRequest.empty)} := by
    unfold CDirectSend.TryToFinalizeLockCandidate
    have hb : (!env.sporkDirectSendEnabled) = false := by rw [hspork]; rfl
    rw [hb]
    simp only [Bool.false_eq_true, if_false]
    rw [hfind]
    dsimp only
    rw [hgh, hready, hnl]
    simp only [Bool.not_false, Bool.and_self, if_true]
    rw [hres]
    rfl
  have hm1 : mfind (massign (massign s.mapTxLockCandidates txHash (c.SetConfirmedHeight 0)) t2 (c2.SetConfirmedHeight 0)) txHash = some (c.SetConfirmedHeight 0) := by
    rw [mfind_massign_ne _ t2 txHash _ (Ne.symm hne)]
    exact mfind_massign_self _ _ _
  have hm2 : mfind (massign (massign s.mapTxLockCandidates txHash (c.SetConfirmedHeight 0)) t2 (c2.SetConfirmedHeight 0)) t2 = some (c2.SetConfirmedHeight 0) :=
    mfind_massign_self _ _ _
  have hexp1 : (c.SetConfirmedHeight 0).IsExpired env s.nCachedBlockHeight = true := by
    simp only [CTxLockCandidate.IsExpired, CTxLockCandidate.SetConfirmedHeight,
      decide_eq_true_eq]
    constructor
    · omega
    · omega
  have hexp2 : (c2.SetConfirmedHeight 0).IsExpired env s.nCachedBlockHeight = true := by
    simp only [CTxLockCandidate.IsExpired, CTxLockCandidate.SetConfirmedHeight,
      decide_eq_true_eq]
    constructor
    · omega
    · omega
  have hev1 := cs_evicts env
    ({s with mapTxLockCandidates := massign (massign s.mapTxLockCandidates txHash (c.SetConfirmedHeight 0)) t2 (c2.SetConfirmedHeight 0)} : CDirectSend).mapTxLockCandidates
    {s with mapTxLockCandidates := massign (massign s.mapTxLockCandidates txHash (c.SetConfirmedHeight 0)) t2 (c2.SetConfirmedHeight 0)}
    txHash (c.SetConfirmedHeight 0) (mfind_mem hm1) hexp1
  have hev2 := cs_evicts env
    ({s with mapTxLockCandidates := massign (massign s.mapTxLockCandidates txHash (c.SetConfirmedHeight 0)) t2 (c2.SetConfirmedHeight 0)} : CDirectSend).mapTxLockCandidates
    {s with mapTxLockCandidates := massign (massign s.mapTxLockCandidates txHash (c.SetConfirmedHeight 0)) t2 (c2.SetConfirmedHeight 0)}
    t2 (c2.SetConfirmedHeight 0) (mfind_mem hm2) hexp2
  have hcf := car_fields env
    {s with mapTxLockCandidates := massign (massign s.mapTxLockCandidates txHash (c.SetConfirmedHeight 0)) t2 (c2.SetConfirmedHeight 0)} hsync
  have ho2' : o ∈ ((c2.SetConfirmedHeight 0).mapOutPointLocks.map Prod.fst) := by
    simp only [CTxLockCandidate.SetConfirmedHeight]
    rw [map_fst_value_map]
    exact ho2
  rw [hfin]
  refine ⟨?_, ?_, ?_, ?_, ?_, ?_⟩
  · dsimp only
    rw [mfind_minsert_ne _ t2 txHash _ (Ne.symm hne)]
    exact mfind_minsert_isSome _ _ _
  · dsimp only
    exact mfind_minsert_isSome _ _ _
  · dsimp only
    rw [hcf.1]
    exact hev1.1
  · dsimp only
    rw [hcf.1]
    exact hev2.1
  · dsimp only
    rw [hcf.2.1]
    exact (hev2.2.1 o ho2').1
  · intro i x hx
    dsimp only at hx
    exact car_locked_sub env
      {s with mapTxLockCandidates := massign (massign s.mapTxLockCandidates txHash (c.SetConfirmedHeight 0)) t2 (c2.SetConfirmedHeight 0)}
      i x hx

/-- Witness for C2 at a concrete two-candidate conflict over one input. -/
theorem c2_conflict_with_completed_witness :
    (mfind (CDirectSend.TryToFinalizeLockCandidate exEnv exStateC2 1).mapLockRequestRejected
      1).isSome = true ∧
    mfind (CDirectSend.TryToFinalizeLockCandidate exEnv exStateC2 1).mapTxLockCandidates
      1 = none ∧
    mfind (CDirectSend.TryToFinalizeLockCandidate exEnv exStateC2 1).mapLockedOutpoints
      ⟨5, 0⟩ = none :=
  ⟨(c2_conflict_with_completed exEnv exStateC2 1 2 exCandC2a exCandC2b exReqC2a [] []
      ⟨5, 0⟩ (by decide) (by decide) (by decide) (by decide) (by decide) (by decide)
      (by decide) (by decide) (by decide) (by decide) (by decide) (by decide)
      (by decide) (by decide)).1,
   (c2_conflict_with_completed exEnv exStateC2 1 2 exCandC2a exCandC2b exReqC2a [] []
      ⟨5, 0⟩ (by decide) (by decide) (by decide) (by decide) (by decide) (by decide)
      (by decide) (by decide) (by decide) (by decide) (by decide) (by decide)
      (by decide) (by decide)).2.2.1,
   (c2_conflict_with_completed exEnv exStateC2 1 2 exCandC2a exCandC2b exReqC2a [] []
      ⟨5, 0⟩ (by decide) (by decide) (by decide) (by decide) (by decide) (by decide)
      (by decide) (by decide) (by decide) (by decide) (by decide) (by decide)
      (by decide) (by decide)).2.2.2.2.1⟩

theorem votesFold_cands (hNew : Int) : ∀ (ids : List VoteId) (s0 : CDirectSend),
    (ids.foldl (fun acc id =>
      match mfind acc.mapTxLockVotes id with
      | some w =>
        let m := massign acc.mapTxLockVotes id (w.SetConfirmedHeight hNew)
        {acc with mapTxLockVotes := m}
      | none => acc) s0).mapTxLockCandidates = s0.mapTxLockCandidates := by
  intro ids
  induction ids with
  | nil => intro s0; rfl
  | cons i rest ih =>
    intro s0
    rw [List.foldl_cons]
    rw [ih]
    split
    · rfl
    · rfl

theorem orphanFold_cands (env : Env) (txHash : Hash) (hNew : Int) :
    ∀ (l : List (VoteId × CTxLockVote)) (s0 : CDirectSend),
    (l.foldl (fun acc p =>
      if p.2.txHash = txHash then
        let cur := (mfind acc.mapTxLockVotes p.1).getD (CDirectSend.DefaultVote env)
        let m := massign acc.mapTxLockVotes p.1 (cur.SetConfirmedHeight hNew)
        {acc with mapTxLockVotes := m}
      else acc) s0).mapTxLockCandidates = s0.mapTxLockCandidates := by
  intro l
  induction l with
  | nil => intro s0; rfl
  | cons p rest ih =>
    intro s0
    rw [List.foldl_cons]
    rw [ih]
    split
    · rfl
    · rfl

/-- C8: CTxLockCandidate::SetConfirmedHeight (modelled from the spec, §4.2,
since the function body lives in instantx.h outside src/) propagates the
height to every contained vote, and this holds at both call sites: after
SyncTransaction the candidate carries SetConfirmedHeight nHeightNew, and in
the completed-conflict branch of ResolveConflicts both candidates carry
SetConfirmedHeight 0 (observed here with the GC gate closed so that the
candidates survive to be inspected). -/
theorem c8_set_confirmed_height_propagates :
    (∀ (c : CTxLockCandidate) (hh : Int),
      (c.SetConfirmedHeight hh).nConfirmedHeight = hh ∧
      ∀ p ∈ (c.SetConfirmedHeight hh).mapOutPointLocks,
        ∀ q ∈ p.2.mapMasternodeVotes, q.2.nConfirmedHeight = hh) ∧
    (∀ (env : Env) (s : CDirectSend) (txHash : Hash) (c : CTxLockCandidate)
        (bh : Hash) (hNew : Int),
      env.blockHeight bh = some hNew →
      mfind s.mapTxLockCandidates txHash = some c →
      mfind (CDirectSend.SyncTransaction env s txHash false
        (some bh)).mapTxLockCandidates txHash = some (c.SetConfirmedHeight hNew)) ∧
    (∀ (env : Env) (s : CDirectSend) (txHash t2 : Hash) (c c2 : CTxLockCandidate)
        (req : CTxLockRequest) (pre post : List COutPoint) (o : COutPoint),
      env.masternodeListSynced = false →
      mfind s.mapTxLockCandidates txHash = some c →
      c.txLockRequest = some req → req.hash = txHash →
      c.IsAllOutPointsReady = true →
      req.vin = pre ++ o :: post →
      (∀ i ∈ pre, (mfind s.mapLockedOutpoints i = none ∨
          mfind s.mapLockedOutpoints i = some txHash) ∧
        (env.mempoolNextTx i = none ∨ env.mempoolNextTx i = some txHash)) →
      mfind s.mapLockedOutpoints o = some t2 →
      txHash ≠ t2 →
      mfind s.mapTxLockCandidates t2 = some c2 →
      (CDirectSend.ResolveConflicts env s c).2 = false ∧
      mfind (CDirectSend.ResolveConflicts env s c).1.mapTxLockCandidates txHash =
        some (c.SetConfirmedHeight 0) ∧
      mfind (CDirectSend.ResolveConflicts env s c).1.mapTxLockCandidates t2 =
        some (c2.SetConfirmedHeight 0)) := by
  refine ⟨?_, ?_, ?_⟩
  · intro c hh
    constructor
    · rfl
    · intro p hp q hq
      unfold CTxLockCandidate.SetConfirmedHeight at hp
      rcases List.mem_map.mp hp with ⟨r, hr, hrp⟩
      rw [← hrp] at hq
      rcases List.mem_map.mp hq with ⟨w, hw, hwq⟩
      rw [← hwq]
      rfl
  · intro env s txHash c bh hNew hbh hfind
    unfold CDirectSend.SyncTransaction
    simp only [Bool.false_eq_true, if_false]
    rw [hbh]
    dsimp only
    rw [hfind]
    dsimp only
    rw [orphanFold_cands]
    rw [votesFold_cands]
    exact mfind_massign_self _ _ _
  · intro env s txHash t2 c c2 req pre post o hsync hfind hreq hrh hready hvin hpre
      hlock hne hc2
    have hgh : c.GetHash = txHash := by
      unfold CTxLockCandidate.GetHash
      rw [hreq]
      exact hrh
    have hget : c.txLockRequest.getD CTxLockRequest.empty = req := by
      rw [hreq]
      rfl
    have hrc := RCLoop_conflict_facts env txHash t2 c c2 o pre post s hpre hlock hne
      hfind hc2
    have hres : CDirectSend.ResolveConflicts env s c =
        ({CDirectSend.CheckAndRemove env {s with mapTxLockCandidates := massign (massign s.mapTxLockCandidates txHash (c.SetConfirmedHeight 0)) t2 (c2.SetConfirmedHeight 0)} with mapLockRequestRejected := minsert (minsert (CDirectSend.CheckAndRemove env {s with mapTxLockCandidates := massign (massign s.mapTxLockCandidates txHash (c.SetConfirmedHeight 0)) t2 (c2.SetConfirmedHeight 0)}).mapLockRequestRejected txHash (c.txLockRequest.getD CTxLockRequest.empty)) t2 (c2.txLockRequest.getD CTxLockRequest.empty)}, false) := by
      unfold CDirectSend.ResolveConflicts
      have hb : (!c.IsAllOutPointsReady) = false := by rw [hready]; rfl
      rw [hb]
      simp only [Bool.false_eq_true, if_false]
      rw [hgh, hget, hvin]
      rw [hrc]
      rw [hget]
    rw [car_unsynced env _ hsync] at hres
    refine ⟨?_, ?_, ?_⟩
    · rw [hres]
    · rw [hres]
      dsimp only
      rw [mfind_massign_ne _ t2 txHash _ (Ne.symm hne)]
      exact mfind_massign_self _ _ _
    · rw [hres]
      dsimp only
      exact mfind_massign_self _ _ _

/-- Witness for C8: SetConfirmedHeight propagation observed through
SyncTransaction on a concrete state. -/
theorem c8_set_confirmed_height_propagates_witness :
    mfind (CDirectSend.SyncTransaction exEnv exState7 1 false
      (some 55)).mapTxLockCandidates 1 = some (exCand7.SetConfirmedHeight 100) :=
  c8_set_confirmed_height_propagates.2.1 exEnv exState7 1 exCand7 55 100
    (by decide) (by decide)

/-!  C6: equivocation handling in the attached branch of ProcessTxLockVote. -/

theorem mfind_minsert_keep {α β : Type} [DecidableEq α] {m : List (α × β)} {k k2 : α}
    {v w : β} (h : mfind m k2 = some w) : mfind (minsert m k v) k2 = some w := by
  unfold minsert
  by_cases hs : (mfind m k).isSome
  · rw [if_pos hs]; exact h
  · rw [if_neg hs, mfind_cons]
    by_cases hkk : k = k2
    · subst hkk
      rw [h] at hs
      exact absurd rfl hs
    · rw [if_neg hkk]; exact h

theorem all_false_of_mfind {α β : Type} [DecidableEq α] (f : α × β → Bool)
    {m : List (α × β)} {k : α} {w : β} (hm : mfind m k = some w)
    (hw : f (k, w) = false) : m.all f = false := by
  cases hall : m.all f with
  | false => rfl
  | true =>
    have hmem := List.all_eq_true.mp hall (k, w) (mfind_mem hm)
    rw [hw] at hmem
    exact absurd hmem Bool.false_ne_true

/-- C6: when during ingestion of a vote attached to a candidate with a
request the same masternode is found to have already voted on the same
input under a different tx hash, the engine marks the input attacked in
both the current and the conflicting candidate, PoSe-bans the signer
exactly once, and still stores the new vote: it is attached to the
current candidate (AddVote succeeds and the new vote sits in the
attacked lock), the conflicting candidate keeps the earlier vote in its
now-attacked lock, the new vote is in votes_by_hash, and every
previously stored vote (in particular the earlier conflicting one)
remains in votes_by_hash. -/
theorem c6_equivocation (fuel : Nat) (env : Env) (s : CDirectSend) (pv : Int)
    (v : CTxLockVote) (t2 : Hash) (c1 c2 : CTxLockCandidate) (l1 l2 : COutPointLock)
    (h1 : env.fLiteMode = false)
    (h2 : env.sporkDirectSendEnabled = true)
    (h3 : env.masternodeListSynced = true)
    (h4 : ¬ pv < MIN_DIRECTSEND_PROTO_VERSION)
    (hfresh : mfind s.mapTxLockVotes v.GetHash = none)
    (hvalid : v.IsValid env = true)
    (hcand : mfind s.mapTxLockCandidates v.txHash = some c1)
    (hreq : c1.txLockRequest.isSome = true)
    (htime : c1.IsTimedOut env = false)
    (hvo : mfind s.mapVotedOutpoints v.outpoint = some [t2])
    (hne : t2 ≠ v.txHash)
    (hc2 : mfind s.mapTxLockCandidates t2 = some c2)
    (hl2 : mfind c2.mapOutPointLocks v.outpoint = some l2)
    (hl2v : l2.HasMasternodeVoted v.outpointMasternode = true)
    (hl1 : mfind c1.mapOutPointLocks v.outpoint = some l1)
    (hl1v : l1.HasMasternodeVoted v.outpointMasternode = false) :
    ∀ sFin, sFin = CDirectSend.ProcessMessage (fuel + 1) env s pv v →
      sFin.poseBans = s.poseBans ++ [v.outpointMasternode] ∧
      ((c1.MarkOutpointAsAttacked v.outpoint).AddVote v).2 = true ∧
      mfind sFin.mapTxLockCandidates v.txHash =
        some ((c1.MarkOutpointAsAttacked v.outpoint).AddVote v).1 ∧
      mfind ((c1.MarkOutpointAsAttacked v.outpoint).AddVote v).1.mapOutPointLocks v.outpoint =
        some ⟨l1.outpoint, (v.outpointMasternode, v) :: l1.mapMasternodeVotes, true⟩ ∧
      mfind sFin.mapTxLockCandidates t2 = some (c2.MarkOutpointAsAttacked v.outpoint) ∧
      mfind (c2.MarkOutpointAsAttacked v.outpoint).mapOutPointLocks v.outpoint =
        some ⟨l2.outpoint, l2.mapMasternodeVotes, true⟩ ∧
      mfind sFin.mapTxLockVotes v.GetHash = some v ∧
      (∀ k w, mfind s.mapTxLockVotes k = some w → mfind sFin.mapTxLockVotes k = some w) := by
  intro sFin hsFin
  have hmark1 : c1.MarkOutpointAsAttacked v.outpoint =
      {c1 with mapOutPointLocks := massign c1.mapOutPointLocks v.outpoint l1.MarkAsAttacked} := by
    unfold CTxLockCandidate.MarkOutpointAsAttacked
    rw [hl1]
  have hl2attack : c2.MarkOutpointAsAttacked v.outpoint =
      {c2 with mapOutPointLocks := massign c2.mapOutPointLocks v.outpoint l2.MarkAsAttacked} := by
    unfold CTxLockCandidate.MarkOutpointAsAttacked
    rw [hl2]
  have hhm2 : c2.HasMasternodeVoted v.outpoint v.outpointMasternode = true := by
    unfold CTxLockCandidate.HasMasternodeVoted
    rw [hl2]
    exact hl2v
  have hnov : (mfind l1.MarkAsAttacked.mapMasternodeVotes v.outpointMasternode).isSome = false :=
    hl1v
  have haddL : l1.MarkAsAttacked.AddVote v =
      (⟨l1.outpoint, (v.outpointMasternode, v) :: l1.mapMasternodeVotes, true⟩, true) := by
    unfold COutPointLock.AddVote
    rw [hnov]
    simp only [Bool.false_eq_true, if_false]
    rfl
  have haddC : (c1.MarkOutpointAsAttacked v.outpoint).AddVote v =
      ({c1 with mapOutPointLocks := massign (massign c1.mapOutPointLocks v.outpoint l1.MarkAsAttacked) v.outpoint ⟨l1.outpoint, (v.outpointMasternode, v) :: l1.mapMasternodeVotes, true⟩}, true) := by
    rw [hmark1]
    unfold CTxLockCandidate.AddVote
    dsimp only
    rw [mfind_massign_self]
    dsimp only
    rw [haddL]
  have hp2 : ((c1.MarkOutpointAsAttacked v.outpoint).AddVote v).2 = true := by
    rw [haddC]
  have hc1lock : mfind ((c1.MarkOutpointAsAttacked v.outpoint).AddVote v).1.mapOutPointLocks
      v.outpoint =
      some ⟨l1.outpoint, (v.outpointMasternode, v) :: l1.mapMasternodeVotes, true⟩ := by
    rw [haddC]
    exact mfind_massign_self _ _ _
  have hall : ((c1.MarkOutpointAsAttacked v.outpoint).AddVote v).1.mapOutPointLocks.all
      (fun p => p.2.IsReady) = false :=
    all_false_of_mfind (fun p => p.2.IsReady) hc1lock rfl
  have hnotready : ((c1.MarkOutpointAsAttacked v.outpoint).AddVote v).1.IsAllOutPointsReady
      = false := by
    unfold CTxLockCandidate.IsAllOutPointsReady
    rw [hall, Bool.and_false]
  have hfind1 : mfind (massign (massign s.mapTxLockCandidates v.txHash (c1.MarkOutpointAsAttacked v.outpoint)) t2 (c2.MarkOutpointAsAttacked v.outpoint)) v.txHash = some (c1.MarkOutpointAsAttacked v.outpoint) := by
    rw [mfind_massign_ne _ _ _ _ hne]
    exact mfind_massign_self _ _ _
  have hPM : CDirectSend.ProcessMessage (fuel + 1) env s pv v =
      (CDirectSend.ProcessTxLockVote (fuel + 1) env
        {s with mapTxLockVotes := minsert s.mapTxLockVotes v.GetHash v} v).1 := by
    unfold CDirectSend.ProcessMessage
    simp [h1, h2, h3, h4, hfresh]
  have hES : CDirectSend.EquivocationScan v [t2]
      {s with mapTxLockVotes := minsert s.mapTxLockVotes v.GetHash v} =
      {s with mapTxLockVotes := minsert s.mapTxLockVotes v.GetHash v, mapTxLockCandidates := massign (massign s.mapTxLockCandidates v.txHash (c1.MarkOutpointAsAttacked v.outpoint)) t2 (c2.MarkOutpointAsAttacked v.outpoint), poseBans := s.poseBans ++ [v.outpointMasternode]} := by
    unfold CDirectSend.EquivocationScan
    rw [List.foldl_cons, List.foldl_nil]
    dsimp only
    rw [if_pos hne]
    rw [hc2]
    dsimp only
    rw [if_pos hhm2]
    rw [hcand]
  have hPTLV : CDirectSend.ProcessTxLockVote (fuel + 1) env
      {s with mapTxLockVotes := minsert s.mapTxLockVotes v.GetHash v} v =
      (CDirectSend.TryToFinalizeLockCandidate env {s with mapTxLockVotes := minsert s.mapTxLockVotes v.GetHash v, mapTxLockCandidates := massign (massign (massign s.mapTxLockCandidates v.txHash (c1.MarkOutpointAsAttacked v.outpoint)) t2 (c2.MarkOutpointAsAttacked v.outpoint)) v.txHash ((c1.MarkOutpointAsAttacked v.outpoint).AddVote v).1, mapVotedOutpoints := massign s.mapVotedOutpoints v.outpoint (sinsert [t2] v.txHash), poseBans := s.poseBans ++ [v.outpointMasternode]} v.txHash, true) := by
    rw [CDirectSend.ProcessTxLockVote]
    have hnv : (!v.IsValid env) = false := by rw [hvalid]; rfl
    rw [hnv]
    simp only [Bool.false_eq_true, if_false]
    rw [hcand]
    dsimp only
    rw [if_pos hreq]
    dsimp only
    rw [htime]
    simp only [Bool.false_eq_true, if_false]
    rw [hvo]
    dsimp only
    rw [hES]
    dsimp only
    rw [hfind1]
    dsimp only
    rw [hp2]
    simp only [Bool.not_true, Bool.false_eq_true, if_false]
  have hTTF : CDirectSend.TryToFinalizeLockCandidate env {s with mapTxLockVotes := minsert s.mapTxLockVotes v.GetHash v, mapTxLockCandidates := massign (massign (massign s.mapTxLockCandidates v.txHash (c1.MarkOutpointAsAttacked v.outpoint)) t2 (c2.MarkOutpointAsAttacked v.outpoint)) v.txHash ((c1.MarkOutpointAsAttacked v.outpoint).AddVote v).1, mapVotedOutpoints := massign s.mapVotedOutpoints v.outpoint (sinsert [t2] v.txHash), poseBans := s.poseBans ++ [v.outpointMasternode]} v.txHash = {s with mapTxLockVotes := minsert s.mapTxLockVotes v.GetHash v, mapTxLockCandidates := massign (massign (massign s.mapTxLockCandidates v.txHash (c1.MarkOutpointAsAttacked v.outpoint)) t2 (c2.MarkOutpointAsAttacked v.outpoint)) v.txHash ((c1.MarkOutpointAsAttacked v.outpoint).AddVote v).1, mapVotedOutpoints := massign s.mapVotedOutpoints v.outpoint (sinsert [t2] v.txHash), poseBans := s.poseBans ++ [v.outpointMasternode]} := by
    unfold CDirectSend.TryToFinalizeLockCandidate
    have hns : (!env.sporkDirectSendEnabled) = false := by rw [h2]; rfl
    rw [hns]
    simp only [Bool.false_eq_true, if_false]
    rw [mfind_massign_self]
    dsimp only
    rw [hnotready]
    simp only [Bool.false_and, Bool.false_eq_true, if_false]
  have hfinal : CDirectSend.ProcessMessage (fuel + 1) env s pv v = {s with mapTxLockVotes := minsert s.mapTxLockVotes v.GetHash v, mapTxLockCandidates := massign (massign (massign s.mapTxLockCandidates v.txHash (c1.MarkOutpointAsAttacked v.outpoint)) t2 (c2.MarkOutpointAsAttacked v.outpoint)) v.txHash ((c1.MarkOutpointAsAttacked v.outpoint).AddVote v).1, mapVotedOutpoints := massign s.mapVotedOutpoints v.outpoint (sinsert [t2] v.txHash), poseBans := s.poseBans ++ [v.outpointMasternode]} := by
    rw [hPM, hPTLV]
    exact hTTF
  rw [hsFin, hfinal]
  refine ⟨rfl, hp2, ?_, hc1lock, ?_, ?_, ?_, ?_⟩
  · exact mfind_massign_self _ _ _
  · dsimp only
    rw [mfind_massign_ne _ _ _ _ (Ne.symm hne)]
    exact mfind_massign_self _ _ _
  · rw [hl2attack]
    exact mfind_massign_self _ _ _
  · exact mfind_minsert_of_none _ _ _ hfresh
  · intro k w hw
    exact mfind_minsert_keep hw

/-- Witness for C6: the equivocating masternode (7,0), having voted on
input (5,0) for tx 2 earlier, votes on the same input for tx 1; it is
PoSe-banned exactly once. -/
theorem c6_equivocation_witness :
    (CDirectSend.ProcessMessage 2 exEnv exStateC6 70208 exVote).poseBans =
      exStateC6.poseBans ++ [exVote.outpointMasternode] :=
  (c6_equivocation 1 exEnv exStateC6 70208 exVote 2 exCandC6a exCandC6b exLockC6a exLockC6b
    (by decide) (by decide) (by decide) (by decide) (by decide) (by decide) (by decide)
    (by decide) (by decide) (by decide) (by decide) (by decide) (by decide) (by decide)
    (by decide) (by decide)
    (CDirectSend.ProcessMessage 2 exEnv exStateC6 70208 exVote) rfl).1

end InstantX
